import Mathlib

/-!
# Composite wrapper generator (pkg/composite/gen/main.go)

The generator renders Go source from text templates.  The embedding is staged:

* template time: the catalog of descriptors, the template variables threaded
  through the range loop of genFuncs, and the list of function blocks
  that the loop renders;
* run time: each rendered function block is a Lean function of the template
  values it was rendered with and of the run-time arguments of the emitted Go
  function.  It returns the Go result together with the trace of the
  observable steps it took (outbound conversions, network calls, metric
  observations).

Logging and the call-timeout context of the emitted code have no influence on
results or on the other steps and are left out.
-/

namespace CompositeGen

/-! ## Values of the emitted code -/

/-- Values of meta.KeyType as the emitted code sees them; unset is the zero
value of the Go type, which no key reports but which a Scope member holds until
it is stamped. -/
inductive KeyType where
  | unset
  | Zonal
  | Regional
  | Global
deriving DecidableEq, Repr

/-- The resource key handed to an emitted operation.  Typ is the value that
key.Type() returns (the method belongs to the cloud-provider library). -/
structure Key where
  Name : String
  Region : String
  Zone : String
  Typ : KeyType
deriving DecidableEq, Repr

/-- Type meta.Version is a Go string type, so any string can be requested. -/
abbrev Version := String

def VersionAlpha : Version := "alpha"

def VersionBeta : Version := "beta"

def VersionGA : Version := "ga"

/-- The three revision clients reachable from gceCloud.Compute(). -/
inductive Client where
  | Alpha
  | Beta
  | GA
deriving DecidableEq, Repr

/-- Text that the templates put in front of the accessor name for a client:
Alpha..., Beta..., and nothing for the stable client. -/
def Client.accessorText : Client → String
  | .Alpha => "Alpha"
  | .Beta => "Beta"
  | .GA => ""

/-- Errors of the emitted code. -/
inductive Err where
  /-- Value of fmt.Errorf("Key %v not valid for zonal resource NAME %v", key, key.Name),
  NAME being the resource name spliced in by the template. -/
  | keyNotValid (key : Key) (resource : String) (keyName : String)
  /-- Value of fmt.Errorf("could not copy object %v to %T via JSON: %v", ...) with the
  target type name and the cause. -/
  | couldNotCopy (target : String) (cause : Err)
  /-- An error value produced by a collaborator (transport, JSON, conversion). -/
  | upstream (msg : String)
deriving DecidableEq, Repr

/-- The members of a revision-specific object that the templates read or write. -/
structure GceObj where
  Name : String
  Region : String
  SelfLink : String
deriving DecidableEq, Repr

/-- A composite object: the two bookkeeping members that genTypes emits with
json "-" (Version, Scope) and the serialized members. -/
structure Composite where
  Version : Version
  Scope : KeyType
  Name : String
  Region : String
  SelfLink : String
deriving DecidableEq, Repr

/-- The Go zero value of a composite type. -/
def Composite.zero : Composite :=
  { Version := "", Scope := KeyType.unset, Name := "", Region := "", SelfLink := "" }

/-- Result of cloudprovider.ParseResourceURL: a resource id whose Key may be nil. -/
structure ResourceID where
  Key : Option Key
deriving DecidableEq, Repr

/-- One network call: gceCloud.Compute().CLIENT FILLER SERVICE().METHOD(ctx, ...).
The accessor name in the emitted text is the concatenation of the client text,
the filler and the service name. -/
structure Call where
  client : Client
  filler : String
  service : String
  method : String
  key : Option Key
  location : Option String
  request : Option GceObj
deriving DecidableEq, Repr

/-- Accessor name as it appears in the emitted text. -/
def Call.accessor (c : Call) : String :=
  c.client.accessorText ++ c.filler ++ c.service

/-- Observable steps of an emitted operation. -/
inductive Event where
  /-- An outbound conversion ToAlpha / ToBeta / ToGA was invoked. -/
  | convert (client : Client)
  /-- A network call was issued. -/
  | call (c : Call)
  /-- The outcome e went through mc.Observe. -/
  | observe (e : Option Err)
deriving DecidableEq, Repr

/-- Result of an emitted operation together with the steps it took. -/
structure Outcome (α : Type) where
  value : α
  trace : List Event
deriving DecidableEq, Repr

/-- The collaborators of the emitted code: the emitted conversion methods, the
JSON transcoder, the transport behind gceCloud and the resource-URL parser. -/
structure World where
  ToAlpha : Composite → Except Err GceObj
  ToBeta : Composite → Except Err GceObj
  ToGA : Composite → Except Err GceObj
  jsonDecode : GceObj → Except Err GceObj
  jsonDecodeList : List GceObj → Except Err (List GceObj)
  exec : Call → Option Err
  get : Call → Except Err GceObj
  list : Call → Except Err (List GceObj)
  aggregatedList : Call → Except Err (List (String × List GceObj))
  ParseResourceURL : String → Option ResourceID × Option Err

/-! ## Template-time data -/

/-- Names carried by GetGroupResourceInfo of a group resource descriptor. -/
structure GroupResourceInfo where
  AttachFuncName : String
  DetachFuncName : String
  ListFuncName : String
  AggListFuncName : String
  AttachReqName : String
  DetachReqName : String
  ListReqName : String
  ListRespName : String
  AggListRespName : String
deriving DecidableEq, Repr

/-- One entry of .Fields as the type template reads it. -/
structure Field where
  Name : String
  GoType : String
  JsonName : String
  Description : String
  JsonStringOverride : Bool
deriving DecidableEq, Repr

/-- What the templates read from a compositemeta.ApiService descriptor. -/
structure ApiService where
  Name : String
  VarName : String
  Fields : List Field
  IsMainService : Bool
  HasCRUD : Bool
  HasUpdate : Bool
  IsDefaultZonalService : Bool
  IsDefaultRegionalService : Bool
  IsGroupResourceService : Bool
  GetCloudProviderName : String
  GetGroupResourceInfo : GroupResourceInfo
deriving DecidableEq, Repr

/-- The three template variables declared at the top of the genFuncs template. -/
structure TemplateVars where
  regionalKeyFiller : String
  globalKeyFiller : String
  onlyZonalKeySupported : Bool
deriving DecidableEq, Repr

/-- Declarations at the head of the template (lines 198-201). -/
def TemplateVars.initial : TemplateVars :=
  { regionalKeyFiller := "", globalKeyFiller := "", onlyZonalKeySupported := false }

/-- The assignments at the head of each range iteration (lines 207-217).  The
zonal branch assigns only onlyZonalKeySupported; the fillers keep the values of
the previous iteration. -/
def assignVars (tv : TemplateVars) (svc : ApiService) : TemplateVars :=
  if svc.IsDefaultZonalService then
    { tv with onlyZonalKeySupported := true }
  else if svc.IsDefaultRegionalService then
    { regionalKeyFiller := "", globalKeyFiller := "Global", onlyZonalKeySupported := false }
  else
    { regionalKeyFiller := "Region", globalKeyFiller := "", onlyZonalKeySupported := false }

/-- The operations that the wrapper template can emit for a descriptor. -/
inductive OpKind where
  | Create
  | Update
  | Delete
  | Get
  | List
  | Attach
  | Detach
  | ListMembers
  | AggregateList
deriving DecidableEq, Repr

/-- The function blocks of the genFuncs template. -/
inductive FuncKind where
  | op (k : OpKind)
  /-- Block toNAMEList. -/
  | toList
  /-- Block toNAME. -/
  | toComposite
  /-- Block VERSIONToNAME for one entry of the revision table. -/
  | versionTo (version : String) (extension : String)
  /-- Block ToVERSION for one entry of the revision table. -/
  | toVersion (version : String) (extension : String)
deriving DecidableEq, Repr

/-- A rendered function block: which block, its emitted name, and the values
of the descriptor and of the template variables it was rendered with. -/
structure EmittedFunc where
  kind : FuncKind
  name : String
  svc : ApiService
  vars : TemplateVars
deriving DecidableEq, Repr

/-- Emitted name of each operation block. -/
def opName (svc : ApiService) : OpKind → String
  | .Create => "Create" ++ svc.Name
  | .Update => "Update" ++ svc.Name
  | .Delete => "Delete" ++ svc.Name
  | .Get => "Get" ++ svc.Name
  | .List => "List" ++ svc.GetCloudProviderName
  | .Attach => svc.GetGroupResourceInfo.AttachFuncName
  | .Detach => svc.GetGroupResourceInfo.DetachFuncName
  | .ListMembers => svc.GetGroupResourceInfo.ListFuncName
  | .AggregateList =>
      svc.GetGroupResourceInfo.AggListFuncName ++ svc.GetGroupResourceInfo.AggListRespName

def emitOp (tv : TemplateVars) (svc : ApiService) (k : OpKind) : EmittedFunc :=
  { kind := FuncKind.op k, name := opName svc k, svc := svc, vars := tv }

/-- The blocks inside the HasCRUD guard (lines 219-783), in template order. -/
def emitOps (tv : TemplateVars) (svc : ApiService) : List EmittedFunc :=
  if svc.HasCRUD then
    [emitOp tv svc OpKind.Create]
      ++ (if svc.HasUpdate then [emitOp tv svc OpKind.Update] else [])
      ++ [emitOp tv svc OpKind.Delete, emitOp tv svc OpKind.Get, emitOp tv svc OpKind.List]
      ++ (if svc.IsGroupResourceService then
            [emitOp tv svc OpKind.Attach, emitOp tv svc OpKind.Detach,
             emitOp tv svc OpKind.ListMembers, emitOp tv svc OpKind.AggregateList]
          else [])
  else []

/-- The conversion blocks after the HasCRUD guard (lines 785-856), in template
order.  The parameter versions is the revision table in the order in which the
template ranges over it. -/
def emitConversions (tv : TemplateVars) (svc : ApiService) (versions : List (String × String)) :
    List EmittedFunc :=
  [{ kind := FuncKind.toList, name := "to" ++ svc.Name ++ "List", svc := svc, vars := tv },
   { kind := FuncKind.toComposite, name := "to" ++ svc.Name, svc := svc, vars := tv }]
    ++ versions.map (fun ve =>
        { kind := FuncKind.versionTo ve.1 ve.2, name := ve.1 ++ "To" ++ svc.Name,
          svc := svc, vars := tv })
    ++ versions.map (fun ve =>
        { kind := FuncKind.toVersion ve.1 ve.2, name := "To" ++ ve.1,
          svc := svc, vars := tv })

/-- The body of one range iteration after the assignments (lines 218-857):
the blocks rendered for one descriptor, all of them inside the IsMainService
guard. -/
def emitFor (tv : TemplateVars) (svc : ApiService) (versions : List (String × String)) :
    List EmittedFunc :=
  if svc.IsMainService then emitOps tv svc ++ emitConversions tv svc versions
  else []

/-- The range loop of genFuncs started with given values of the template
variables. -/
def genFuncsFrom (versions : List (String × String)) :
    TemplateVars → List ApiService → List EmittedFunc
  | _, [] => []
  | tv, svc :: rest =>
      emitFor (assignVars tv svc) svc versions ++ genFuncsFrom versions (assignVars tv svc) rest

/-- Function genFuncs: everything the wrapper template renders for a catalog. -/
def genFuncs (all : List ApiService) (versions : List (String × String)) : List EmittedFunc :=
  genFuncsFrom versions TemplateVars.initial all

/-- Values of the template variables after the loop has run over the
descriptors before. -/
def varsAfter (before : List ApiService) : TemplateVars :=
  before.foldl assignVars TemplateVars.initial

/-- Values of the template variables with which the blocks of svc are
rendered when the descriptors before precede it in the catalog. -/
def renderVars (before : List ApiService) (svc : ApiService) : TemplateVars :=
  assignVars (varsAfter before) svc

/-! ## Collaborators of the emitted code -/

/-- Modelled from the spec: the metric observation mc.Observe of package
compositemetrics, which is not among the sources.  The outcome is routed
through the observation and handed back unchanged. -/
def Observe (pre : List Event) (c : Call) (e : Option Err) : Outcome (Option Err) :=
  { value := e, trace := pre ++ [Event.call c, Event.observe e] }

/-- Modelled from the spec: copyViaJSON of package composite, which is not among
the sources, at a composite destination.  Members are matched by their
wire name, so only serialized members of the destination are written; the
members that genTypes emits with json "-" keep the value they had. -/
def copyViaJSON (w : World) (dest : Composite) (src : GceObj) : Except Err Composite :=
  match w.jsonDecode src with
  | .error e => .error e
  | .ok p => .ok { dest with Name := p.Name, Region := p.Region, SelfLink := p.SelfLink }

/-- Modelled from the spec: copyViaJSON at a destination that is a list of
composite objects.  Every element of the result is decoded into a fresh zero
value, so its non-serialized members are zero. -/
def copyViaJSONList (w : World) (src : List GceObj) : Except Err (List Composite) :=
  match w.jsonDecodeList src with
  | .error e => .error e
  | .ok ps =>
      .ok (ps.map (fun p =>
        { Composite.zero with Name := p.Name, Region := p.Region, SelfLink := p.SelfLink }))

/-! ## The emitted conversion blocks used by the operations -/

/-- Block toNAMEList (lines 787-795). -/
def toNameList (name : String) (w : World) (objs : List GceObj) : Except Err (List Composite) :=
  match copyViaJSONList w objs with
  | .error e => .error (Err.couldNotCopy ("[]*" ++ name) e)
  | .ok result => .ok result

/-- Block toNAME (lines 798-805). -/
def toName (name : String) (w : World) (obj : GceObj) : Except Err Composite :=
  match copyViaJSON w Composite.zero obj with
  | .error e => .error (Err.couldNotCopy ("*" ++ name) e)
  | .ok x => .ok x

/-! ## The emitted operations -/

/-- The key validation switch
switch key.Type() (case meta.Zonal: / default: return fmt.Errorf(...)). -/
def zonalKeyCheck (svc : ApiService) (key : Key) : Option Err :=
  match key.Typ with
  | .Zonal => none
  | _ => some (Err.keyNotValid key svc.Name key.Name)

/-- The validation as the CRUD blocks emit it: present only when the template
variable onlyZonalKeySupported is true. -/
def crudKeyCheck (tv : TemplateVars) (svc : ApiService) (key : Key) : Option Err :=
  if tv.onlyZonalKeySupported then zonalKeyCheck svc key else none

/-- The scope part of one revision branch of Create (lines 240-253, 260-273,
280-293): the three branches differ only in the client text. -/
def createCall (tv : TemplateVars) (svc : ApiService) (client : Client) (key : Key)
    (x : GceObj) : Call :=
  if tv.onlyZonalKeySupported then
    { client := client, filler := "", service := svc.GetCloudProviderName, method := "Insert",
      key := some key, location := none, request := some x }
  else
    match key.Typ with
    | .Regional =>
        { client := client, filler := tv.regionalKeyFiller, service := svc.GetCloudProviderName,
          method := "Insert", key := some key, location := none,
          request := some { x with Region := key.Region } }
    | _ =>
        { client := client, filler := tv.globalKeyFiller, service := svc.GetCloudProviderName,
          method := "Insert", key := some key, location := none, request := some x }

/-- Block CreateNAME (lines 220-295). -/
def Create (tv : TemplateVars) (svc : ApiService) (w : World) (key : Key) (obj : Composite) :
    Outcome (Option Err) :=
  match crudKeyCheck tv svc key with
  | some e => { value := some e, trace := [] }
  | none =>
    if obj.Version = VersionAlpha then
      match w.ToAlpha obj with
      | .error e => { value := some e, trace := [Event.convert Client.Alpha] }
      | .ok alpha =>
          Observe [Event.convert Client.Alpha] (createCall tv svc Client.Alpha key alpha)
            (w.exec (createCall tv svc Client.Alpha key alpha))
    else if obj.Version = VersionBeta then
      match w.ToBeta obj with
      | .error e => { value := some e, trace := [Event.convert Client.Beta] }
      | .ok beta =>
          Observe [Event.convert Client.Beta] (createCall tv svc Client.Beta key beta)
            (w.exec (createCall tv svc Client.Beta key beta))
    else
      match w.ToGA obj with
      | .error e => { value := some e, trace := [Event.convert Client.GA] }
      | .ok ga =>
          Observe [Event.convert Client.GA] (createCall tv svc Client.GA key ga)
            (w.exec (createCall tv svc Client.GA key ga))

/-- The scope part of one revision branch of Update (lines 318-330, 337-349,
356-368). -/
def updateCall (tv : TemplateVars) (svc : ApiService) (client : Client) (key : Key)
    (x : GceObj) : Call :=
  if tv.onlyZonalKeySupported then
    { client := client, filler := "", service := svc.GetCloudProviderName, method := "Update",
      key := some key, location := none, request := some x }
  else
    match key.Typ with
    | .Regional =>
        { client := client, filler := tv.regionalKeyFiller, service := svc.GetCloudProviderName,
          method := "Update", key := some key, location := none, request := some x }
    | _ =>
        { client := client, filler := tv.globalKeyFiller, service := svc.GetCloudProviderName,
          method := "Update", key := some key, location := none, request := some x }

/-- Block UpdateNAME (lines 298-370), rendered when HasUpdate holds. -/
def Update (tv : TemplateVars) (svc : ApiService) (w : World) (key : Key) (obj : Composite) :
    Outcome (Option Err) :=
  match crudKeyCheck tv svc key with
  | some e => { value := some e, trace := [] }
  | none =>
    if obj.Version = VersionAlpha then
      match w.ToAlpha obj with
      | .error e => { value := some e, trace := [Event.convert Client.Alpha] }
      | .ok alpha =>
          Observe [Event.convert Client.Alpha] (updateCall tv svc Client.Alpha key alpha)
            (w.exec (updateCall tv svc Client.Alpha key alpha))
    else if obj.Version = VersionBeta then
      match w.ToBeta obj with
      | .error e => { value := some e, trace := [Event.convert Client.Beta] }
      | .ok beta =>
          Observe [Event.convert Client.Beta] (updateCall tv svc Client.Beta key beta)
            (w.exec (updateCall tv svc Client.Beta key beta))
    else
      match w.ToGA obj with
      | .error e => { value := some e, trace := [Event.convert Client.GA] }
      | .ok ga =>
          Observe [Event.convert Client.GA] (updateCall tv svc Client.GA key ga)
            (w.exec (updateCall tv svc Client.GA key ga))

/-- The scope part of one revision branch of Delete (lines 389-401, 403-415,
417-429). -/
def deleteCall (tv : TemplateVars) (svc : ApiService) (client : Client) (key : Key) : Call :=
  if tv.onlyZonalKeySupported then
    { client := client, filler := "", service := svc.GetCloudProviderName, method := "Delete",
      key := some key, location := none, request := none }
  else
    match key.Typ with
    | .Regional =>
        { client := client, filler := tv.regionalKeyFiller, service := svc.GetCloudProviderName,
          method := "Delete", key := some key, location := none, request := none }
    | _ =>
        { client := client, filler := tv.globalKeyFiller, service := svc.GetCloudProviderName,
          method := "Delete", key := some key, location := none, request := none }

/-- Block DeleteNAME (lines 373-431). -/
def Delete (tv : TemplateVars) (svc : ApiService) (w : World) (key : Key) (version : Version) :
    Outcome (Option Err) :=
  match crudKeyCheck tv svc key with
  | some e => { value := some e, trace := [] }
  | none =>
    if version = VersionAlpha then
      Observe [] (deleteCall tv svc Client.Alpha key) (w.exec (deleteCall tv svc Client.Alpha key))
    else if version = VersionBeta then
      Observe [] (deleteCall tv svc Client.Beta key) (w.exec (deleteCall tv svc Client.Beta key))
    else
      Observe [] (deleteCall tv svc Client.GA key) (w.exec (deleteCall tv svc Client.GA key))

/-- The scope part of one revision branch of Get (lines 452-464, 466-478,
480-492). -/
def getCall (tv : TemplateVars) (svc : ApiService) (client : Client) (key : Key) : Call :=
  if tv.onlyZonalKeySupported then
    { client := client, filler := "", service := svc.GetCloudProviderName, method := "Get",
      key := some key, location := none, request := none }
  else
    match key.Typ with
    | .Regional =>
        { client := client, filler := tv.regionalKeyFiller, service := svc.GetCloudProviderName,
          method := "Get", key := some key, location := none, request := none }
    | _ =>
        { client := client, filler := tv.globalKeyFiller, service := svc.GetCloudProviderName,
          method := "Get", key := some key, location := none, request := none }

/-- The revision switch of Get (lines 450-493): the call that is issued. -/
def getSwitch (tv : TemplateVars) (svc : ApiService) (key : Key) (version : Version) : Call :=
  if version = VersionAlpha then getCall tv svc Client.Alpha key
  else if version = VersionBeta then getCall tv svc Client.Beta key
  else getCall tv svc Client.GA key

/-- The scope stamp of Get (lines 503-509). -/
def getStamp (tv : TemplateVars) (svc : ApiService) (key : Key) (compositeType : Composite) :
    Composite :=
  if tv.onlyZonalKeySupported then
    { compositeType with Scope := KeyType.Zonal }
  else if svc.IsDefaultRegionalService then
    (if key.Typ = KeyType.Regional then { compositeType with Scope := KeyType.Regional }
     else compositeType)
  else compositeType

/-- Block GetNAME (lines 433-512). -/
def Get (tv : TemplateVars) (svc : ApiService) (w : World) (key : Key) (version : Version) :
    Outcome (Except Err Composite) :=
  match crudKeyCheck tv svc key with
  | some e => { value := .error e, trace := [] }
  | none =>
    match w.get (getSwitch tv svc key version) with
    | .error e =>
        { value := .error e,
          trace := (Observe [] (getSwitch tv svc key version) (some e)).trace }
    | .ok gceObj =>
      match toName svc.Name w gceObj with
      | .error e =>
          { value := .error e,
            trace := (Observe [] (getSwitch tv svc key version) none).trace }
      | .ok compositeType =>
          { value := .ok { getStamp tv svc key compositeType with Version := version },
            trace := (Observe [] (getSwitch tv svc key version) none).trace }

/-- The scope part of one revision branch of List (lines 532-544, 546-558,
560-572). -/
def listCall (tv : TemplateVars) (svc : ApiService) (client : Client) (key : Key) : Call :=
  if tv.onlyZonalKeySupported then
    { client := client, filler := "", service := svc.GetCloudProviderName, method := "List",
      key := none, location := some key.Zone, request := none }
  else
    match key.Typ with
    | .Regional =>
        { client := client, filler := tv.regionalKeyFiller, service := svc.GetCloudProviderName,
          method := "List", key := none, location := some key.Region, request := none }
    | _ =>
        { client := client, filler := tv.globalKeyFiller, service := svc.GetCloudProviderName,
          method := "List", key := none, location := none, request := none }

/-- The revision switch of List (lines 530-573): the call that is issued. -/
def listSwitch (tv : TemplateVars) (svc : ApiService) (key : Key) (version : Version) : Call :=
  if version = VersionAlpha then listCall tv svc Client.Alpha key
  else if version = VersionBeta then listCall tv svc Client.Beta key
  else listCall tv svc Client.GA key

/-- Block ListPROVIDER (lines 514-587). -/
def ListProvider (tv : TemplateVars) (svc : ApiService) (w : World) (key : Key)
    (version : Version) :
    Outcome (Except Err (List Composite)) :=
  match crudKeyCheck tv svc key with
  | some e => { value := .error e, trace := [] }
  | none =>
    match w.list (listSwitch tv svc key version) with
    | .error e =>
        { value := .error e,
          trace := (Observe [] (listSwitch tv svc key version) (some e)).trace }
    | .ok gceObjs =>
      match toNameList svc.Name w gceObjs with
      | .error e =>
          { value := .error e,
            trace := (Observe [] (listSwitch tv svc key version) none).trace }
      | .ok compositeObjs =>
          { value := .ok (compositeObjs.map (fun obj => { obj with Version := version })),
            trace := (Observe [] (listSwitch tv svc key version) none).trace }

/-- The call of a group operation: always the accessor without filler. -/
def groupCall (svc : ApiService) (client : Client) (method : String) (key : Key)
    (req : GceObj) : Call :=
  { client := client, filler := "", service := svc.GetCloudProviderName, method := method,
    key := some key, location := none, request := some req }

/-- Block of the attach function (lines 590-625), rendered for group resources. -/
def Attach (svc : ApiService) (w : World) (key : Key) (version : Version) (req : Composite) :
    Outcome (Option Err) :=
  match zonalKeyCheck svc key with
  | some e => { value := some e, trace := [] }
  | none =>
    if version = VersionAlpha then
      match w.ToAlpha req with
      | .error e => { value := some e, trace := [Event.convert Client.Alpha] }
      | .ok alphareq =>
          Observe [Event.convert Client.Alpha]
            (groupCall svc Client.Alpha svc.GetGroupResourceInfo.AttachFuncName key alphareq)
            (w.exec
              (groupCall svc Client.Alpha svc.GetGroupResourceInfo.AttachFuncName key alphareq))
    else if version = VersionBeta then
      match w.ToBeta req with
      | .error e => { value := some e, trace := [Event.convert Client.Beta] }
      | .ok betareq =>
          Observe [Event.convert Client.Beta]
            (groupCall svc Client.Beta svc.GetGroupResourceInfo.AttachFuncName key betareq)
            (w.exec
              (groupCall svc Client.Beta svc.GetGroupResourceInfo.AttachFuncName key betareq))
    else
      match w.ToGA req with
      | .error e => { value := some e, trace := [Event.convert Client.GA] }
      | .ok gareq =>
          Observe [Event.convert Client.GA]
            (groupCall svc Client.GA svc.GetGroupResourceInfo.AttachFuncName key gareq)
            (w.exec (groupCall svc Client.GA svc.GetGroupResourceInfo.AttachFuncName key gareq))

/-- Block of the detach function (lines 627-662). -/
def Detach (svc : ApiService) (w : World) (key : Key) (version : Version) (req : Composite) :
    Outcome (Option Err) :=
  match zonalKeyCheck svc key with
  | some e => { value := some e, trace := [] }
  | none =>
    if version = VersionAlpha then
      match w.ToAlpha req with
      | .error e => { value := some e, trace := [Event.convert Client.Alpha] }
      | .ok alphareq =>
          Observe [Event.convert Client.Alpha]
            (groupCall svc Client.Alpha svc.GetGroupResourceInfo.DetachFuncName key alphareq)
            (w.exec
              (groupCall svc Client.Alpha svc.GetGroupResourceInfo.DetachFuncName key alphareq))
    else if version = VersionBeta then
      match w.ToBeta req with
      | .error e => { value := some e, trace := [Event.convert Client.Beta] }
      | .ok betareq =>
          Observe [Event.convert Client.Beta]
            (groupCall svc Client.Beta svc.GetGroupResourceInfo.DetachFuncName key betareq)
            (w.exec
              (groupCall svc Client.Beta svc.GetGroupResourceInfo.DetachFuncName key betareq))
    else
      match w.ToGA req with
      | .error e => { value := some e, trace := [Event.convert Client.GA] }
      | .ok gareq =>
          Observe [Event.convert Client.GA]
            (groupCall svc Client.GA svc.GetGroupResourceInfo.DetachFuncName key gareq)
            (w.exec (groupCall svc Client.GA svc.GetGroupResourceInfo.DetachFuncName key gareq))

/-- The part of the list-members function after its revision switch (lines
702-714), entered with the call that was issued. -/
def listMembersTail (svc : ApiService) (w : World) (version : Version) (pre : List Event)
    (c : Call) : Outcome (Except Err (List Composite)) :=
  match w.list c with
  | .error e => { value := .error e, trace := (Observe pre c (some e)).trace }
  | .ok gceObjs =>
    match toNameList svc.GetGroupResourceInfo.ListRespName w gceObjs with
    | .error e => { value := .error e, trace := (Observe pre c none).trace }
    | .ok compositeObjs =>
        { value := .ok (compositeObjs.map (fun obj => { obj with Version := version })),
          trace := (Observe pre c none).trace }

/-- Block of the list-members function (lines 664-715). -/
def ListMembers (svc : ApiService) (w : World) (key : Key) (version : Version)
    (req : Composite) : Outcome (Except Err (List Composite)) :=
  match zonalKeyCheck svc key with
  | some e => { value := .error e, trace := [] }
  | none =>
    if version = VersionAlpha then
      match w.ToAlpha req with
      | .error reqerr => { value := .error reqerr, trace := [Event.convert Client.Alpha] }
      | .ok alphareq =>
          listMembersTail svc w version [Event.convert Client.Alpha]
            (groupCall svc Client.Alpha svc.GetGroupResourceInfo.ListFuncName key alphareq)
    else if version = VersionBeta then
      match w.ToBeta req with
      | .error reqerr => { value := .error reqerr, trace := [Event.convert Client.Beta] }
      | .ok betareq =>
          listMembersTail svc w version [Event.convert Client.Beta]
            (groupCall svc Client.Beta svc.GetGroupResourceInfo.ListFuncName key betareq)
    else
      match w.ToGA req with
      | .error reqerr => { value := .error reqerr, trace := [Event.convert Client.GA] }
      | .ok gareq =>
          listMembersTail svc w version [Event.convert Client.GA]
            (groupCall svc Client.GA svc.GetGroupResourceInfo.ListFuncName key gareq)

/-- The call of the aggregated-list function. -/
def aggCall (svc : ApiService) (client : Client) : Call :=
  { client := client, filler := "", service := svc.GetCloudProviderName,
    method := svc.GetGroupResourceInfo.AggListFuncName,
    key := none, location := none, request := none }

/-- The loop "Convert from map to list" (lines 734-737): the per-location lists
appended in the order in which the map is ranged over. -/
def flattenMap (m : List (String × List GceObj)) : List GceObj :=
  m.foldl (fun acc val => acc ++ val.2) []

/-- One pass of the indexing loop (lines 770-778): the revision is stamped, the
SelfLink parsed, and the element is skipped when the parse reports an error, a
nil resource id or a nil key. -/
def aggEntry (w : World) (version : Version) (obj : Composite) : Option (Key × Composite) :=
  match w.ParseResourceURL obj.SelfLink with
  | (some resourceID, none) =>
      (match resourceID.Key with
       | some k => some (k, { obj with Version := version })
       | none => none)
  | _ => none

/-- The part of the aggregated-list function after its revision switch (lines
766-780).  The Go map is keyed by key pointers, one fresh pointer per parsed
element, so entries never overwrite each other; it is kept as the list of its
entries. -/
def aggTail (svc : ApiService) (w : World) (version : Version) (gceObjs : List GceObj) :
    Except Err (List (Key × Composite)) :=
  match toNameList svc.GetGroupResourceInfo.AggListRespName w gceObjs with
  | .error e => .error e
  | .ok compositeObjs => .ok (compositeObjs.filterMap (aggEntry w version))

/-- One revision branch of the aggregated-list function followed by the tail. -/
def aggBranch (svc : ApiService) (w : World) (version : Version) (client : Client) :
    Outcome (Except Err (List (Key × Composite))) :=
  match w.aggregatedList (aggCall svc client) with
  | .error e =>
      { value := .error e, trace := (Observe [] (aggCall svc client) (some e)).trace }
  | .ok m =>
      { value := aggTail svc w version (flattenMap m),
        trace := (Observe [] (aggCall svc client) none).trace }

/-- Block of the aggregated-list function (lines 717-781). -/
def AggregateList (svc : ApiService) (w : World) (version : Version) :
    Outcome (Except Err (List (Key × Composite))) :=
  if version = VersionAlpha then aggBranch svc w version Client.Alpha
  else if version = VersionBeta then aggBranch svc w version Client.Beta
  else aggBranch svc w version Client.GA

/-! ## Invocations of the emitted operations -/

/-- An invocation of one emitted operation with its run-time arguments. -/
inductive Invocation where
  | Create (key : Key) (obj : Composite)
  | Update (key : Key) (obj : Composite)
  | Delete (key : Key) (version : Version)
  | Get (key : Key) (version : Version)
  | List (key : Key) (version : Version)
  | Attach (key : Key) (version : Version) (req : Composite)
  | Detach (key : Key) (version : Version) (req : Composite)
  | ListMembers (key : Key) (version : Version) (req : Composite)
  | AggregateList (version : Version)
deriving DecidableEq, Repr

/-- The operation that is invoked. -/
def Invocation.kind : Invocation → OpKind
  | .Create _ _ => OpKind.Create
  | .Update _ _ => OpKind.Update
  | .Delete _ _ => OpKind.Delete
  | .Get _ _ => OpKind.Get
  | .List _ _ => OpKind.List
  | .Attach _ _ _ => OpKind.Attach
  | .Detach _ _ _ => OpKind.Detach
  | .ListMembers _ _ _ => OpKind.ListMembers
  | .AggregateList _ => OpKind.AggregateList

/-- The requested revision: the Version member of the object for Create and
Update, the version argument for the others. -/
def Invocation.version : Invocation → Version
  | .Create _ obj => obj.Version
  | .Update _ obj => obj.Version
  | .Delete _ version => version
  | .Get _ version => version
  | .List _ version => version
  | .Attach _ version _ => version
  | .Detach _ version _ => version
  | .ListMembers _ version _ => version
  | .AggregateList version => version

/-- The key argument; the aggregated list takes none. -/
def Invocation.key : Invocation → Option Key
  | .Create key _ => some key
  | .Update key _ => some key
  | .Delete key _ => some key
  | .Get key _ => some key
  | .List key _ => some key
  | .Attach key _ _ => some key
  | .Detach key _ _ => some key
  | .ListMembers key _ _ => some key
  | .AggregateList _ => none

/-- The object or request that goes through an outbound conversion, for the
operations that have one. -/
def Invocation.outbound : Invocation → Option Composite
  | .Create _ obj => some obj
  | .Update _ obj => some obj
  | .Attach _ _ req => some req
  | .Detach _ _ req => some req
  | .ListMembers _ _ req => some req
  | _ => none

/-- What an emitted operation hands back. -/
inductive Result where
  | status (e : Option Err)
  | object (r : Except Err Composite)
  | objects (r : Except Err (List Composite))
  | objectMap (r : Except Err (List (Key × Composite)))

/-- The error component of a result (nil when the operation succeeded). -/
def Result.err : Result → Option Err
  | .status e => e
  | .object (.error e) => some e
  | .object (.ok _) => none
  | .objects (.error e) => some e
  | .objects (.ok _) => none
  | .objectMap (.error e) => some e
  | .objectMap (.ok _) => none

/-- Run the block of the invoked operation as rendered with the template
values tv for the descriptor svc. -/
def invoke (tv : TemplateVars) (svc : ApiService) (w : World) : Invocation → Outcome Result
  | .Create key obj =>
      { value := Result.status (Create tv svc w key obj).value,
        trace := (Create tv svc w key obj).trace }
  | .Update key obj =>
      { value := Result.status (Update tv svc w key obj).value,
        trace := (Update tv svc w key obj).trace }
  | .Delete key version =>
      { value := Result.status (Delete tv svc w key version).value,
        trace := (Delete tv svc w key version).trace }
  | .Get key version =>
      { value := Result.object (Get tv svc w key version).value,
        trace := (Get tv svc w key version).trace }
  | .List key version =>
      { value := Result.objects (ListProvider tv svc w key version).value,
        trace := (ListProvider tv svc w key version).trace }
  | .Attach key version req =>
      { value := Result.status (Attach svc w key version req).value,
        trace := (Attach svc w key version req).trace }
  | .Detach key version req =>
      { value := Result.status (Detach svc w key version req).value,
        trace := (Detach svc w key version req).trace }
  | .ListMembers key version req =>
      { value := Result.objects (ListMembers svc w key version req).value,
        trace := (ListMembers svc w key version req).trace }
  | .AggregateList version =>
      { value := Result.objectMap (AggregateList svc w version).value,
        trace := (AggregateList svc w version).trace }

/-- The network calls among the steps of an operation. -/
def calls : List Event → List Call
  | [] => []
  | Event.call c :: rest => c :: calls rest
  | _ :: rest => calls rest

/-- The outcomes that went through the metric observation. -/
def observed : List Event → List (Option Err)
  | [] => []
  | Event.observe e :: rest => e :: observed rest
  | _ :: rest => observed rest

/-- The outbound conversions among the steps of an operation. -/
def conversions : List Event → List Client
  | [] => []
  | Event.convert c :: rest => c :: conversions rest
  | _ :: rest => conversions rest

/-! ## The properties in the words of the specification -/

/-- Revision selection as specified: alpha, then beta, stable as the fallback. -/
def clientFor (version : Version) : Client :=
  if version = VersionAlpha then Client.Alpha
  else if version = VersionBeta then Client.Beta
  else Client.GA

/-- The emitted conversion method of a revision. -/
def toRevision (w : World) : Client → Composite → Except Err GceObj
  | .Alpha => w.ToAlpha
  | .Beta => w.ToBeta
  | .GA => w.ToGA

/-- The five CRUD operations. -/
def OpKind.isCRUD : OpKind → Bool
  | .Create | .Update | .Delete | .Get | .List => true
  | _ => false

/-- The three group operations that take a key. -/
def OpKind.isGroupKeyed : OpKind → Bool
  | .Attach | .Detach | .ListMembers => true
  | _ => false

/-- Key validation succeeds: a CRUD operation of a zonal-only resource and
every keyed group operation require a Zonal key; nothing else is validated. -/
def keyValid (svc : ApiService) (inv : Invocation) : Bool :=
  match inv.key with
  | none => true
  | some key =>
      if inv.kind.isGroupKeyed then key.Typ == KeyType.Zonal
      else if svc.IsDefaultZonalService then key.Typ == KeyType.Zonal
      else true

/-- Outbound conversion succeeds (or the operation has none). -/
def outboundOk (w : World) (inv : Invocation) : Bool :=
  match inv.outbound with
  | none => true
  | some x =>
      match toRevision w (clientFor inv.version) x with
      | .ok _ => true
      | .error _ => false

/-- The scope rule as specified: the text between the client text and the
service name of the accessor, by scope class of the descriptor and key type. -/
def scopeFiller (svc : ApiService) (t : KeyType) : String :=
  if svc.IsDefaultZonalService then ""
  else if svc.IsDefaultRegionalService then (if t = KeyType.Regional then "" else "Global")
  else (if t = KeyType.Regional then "Region" else "")

/-- The operations of the wrapper contract and the descriptor flags under which
the specification says each is emitted. -/
def emitCondition (svc : ApiService) : OpKind → Bool
  | .Create | .Delete | .Get | .List => svc.IsMainService && svc.HasCRUD
  | .Update => svc.IsMainService && svc.HasCRUD && svc.HasUpdate
  | .Attach | .Detach | .ListMembers | .AggregateList =>
      svc.IsMainService && svc.HasCRUD && svc.IsGroupResourceService

/-- The outbound conversion step of an invocation, when it has one. -/
def convertSteps (inv : Invocation) : List Event :=
  match inv.outbound with
  | some _ => [Event.convert (clientFor inv.version)]
  | none => []

/-- The filler that the specification prescribes for the call of an
invocation: the scope rule for CRUD operations, none for group operations. -/
def expectedFiller (svc : ApiService) (inv : Invocation) : String :=
  match inv.key with
  | some key => if inv.kind.isCRUD then scopeFiller svc key.Typ else ""
  | none => ""

/-- The outcome handed back to the caller has gone through the metric
observation. -/
def outcomeObserved (out : Outcome Result) : Prop :=
  Event.observe out.value.err ∈ out.trace

instance (out : Outcome Result) : Decidable (outcomeObserved out) := by
  unfold outcomeObserved
  infer_instance

/-- The key that a SelfLink parses to: present when the parser reports no
error, a resource id that is not nil and a key that is not nil. -/
def parsedKey (w : World) (selfLink : String) : Option Key :=
  match w.ParseResourceURL selfLink with
  | (some resourceID, none) => resourceID.Key
  | _ => none

/-- What is known about the call of an invocation that got past validation and
conversion. -/
def CallFacts (svc : ApiService) (w : World) (inv : Invocation) (out : Outcome Result)
    (c : Call) (o : Option Err) : Prop :=
  out.trace = convertSteps inv ++ [Event.call c, Event.observe o]
    ∧ c.client = clientFor inv.version
    ∧ c.service = svc.GetCloudProviderName
    ∧ c.filler = expectedFiller svc inv
    ∧ (∀ e, o = some e → out.value.err = some e)
    ∧ (∀ s, out.value = Result.status s → s = o)
    ∧ (∀ r, c.request = some r →
        ∃ x y, inv.outbound = some x ∧ toRevision w (clientFor inv.version) x = .ok y
          ∧ (r = y ∨ ∃ key, inv.key = some key ∧ r = { y with Region := key.Region }))

/-! ## Sample catalog and collaborators -/

def sampleGroupInfo : GroupResourceInfo :=
  { AttachFuncName := "AttachNetworkEndpoints",
    DetachFuncName := "DetachNetworkEndpoints",
    ListFuncName := "ListNetworkEndpoints",
    AggListFuncName := "AggregatedList",
    AttachReqName := "NetworkEndpointGroupsAttachEndpointsRequest",
    DetachReqName := "NetworkEndpointGroupsDetachEndpointsRequest",
    ListReqName := "NetworkEndpointGroupsListEndpointsRequest",
    ListRespName := "NetworkEndpointWithHealthStatus",
    AggListRespName := "NetworkEndpointGroup" }

def noGroupInfo : GroupResourceInfo :=
  { AttachFuncName := "", DetachFuncName := "", ListFuncName := "", AggListFuncName := "",
    AttachReqName := "", DetachReqName := "", ListReqName := "", ListRespName := "",
    AggListRespName := "" }

/-- A zonal-only group resource. -/
def sampleNeg : ApiService :=
  { Name := "NetworkEndpointGroup", VarName := "networkEndpointGroup", Fields := [],
    IsMainService := true, HasCRUD := true, HasUpdate := false,
    IsDefaultZonalService := true, IsDefaultRegionalService := false,
    IsGroupResourceService := true,
    GetCloudProviderName := "NetworkEndpointGroups", GetGroupResourceInfo := sampleGroupInfo }

/-- A default-regional resource. -/
def sampleForwardingRule : ApiService :=
  { Name := "ForwardingRule", VarName := "forwardingRule", Fields := [],
    IsMainService := true, HasCRUD := true, HasUpdate := false,
    IsDefaultZonalService := false, IsDefaultRegionalService := true,
    IsGroupResourceService := false,
    GetCloudProviderName := "ForwardingRules", GetGroupResourceInfo := noGroupInfo }

/-- A resource that is neither zonal-only nor default-regional. -/
def sampleBackendService : ApiService :=
  { Name := "BackendService", VarName := "backendService", Fields := [],
    IsMainService := true, HasCRUD := true, HasUpdate := true,
    IsDefaultZonalService := false, IsDefaultRegionalService := false,
    IsGroupResourceService := false,
    GetCloudProviderName := "BackendServices", GetGroupResourceInfo := noGroupInfo }

/-- A descriptor that is not a main service. -/
def sampleBackend : ApiService :=
  { Name := "Backend", VarName := "backend", Fields := [],
    IsMainService := false, HasCRUD := false, HasUpdate := false,
    IsDefaultZonalService := false, IsDefaultRegionalService := false,
    IsGroupResourceService := false,
    GetCloudProviderName := "", GetGroupResourceInfo := noGroupInfo }

def sampleCatalog : List ApiService :=
  [sampleBackendService, sampleBackend, sampleForwardingRule, sampleNeg]

def sampleVersions : List (String × String) :=
  [("Alpha", "alpha"), ("Beta", "beta"), ("GA", "")]

def zonalKey : Key :=
  { Name := "neg-1", Region := "", Zone := "us-central1-a", Typ := KeyType.Zonal }

def regionalKey : Key :=
  { Name := "rule-1", Region := "us-central1", Zone := "", Typ := KeyType.Regional }

def globalKey : Key :=
  { Name := "bs-1", Region := "", Zone := "", Typ := KeyType.Global }

def sampleObj : GceObj :=
  { Name := "neg-1", Region := "", SelfLink := "zones/us-central1-a/networkEndpointGroups/neg-1" }

def sampleBadObj : GceObj :=
  { Name := "neg-2", Region := "", SelfLink := "bad" }

def sampleComposite : Composite :=
  { Version := "ga", Scope := KeyType.unset, Name := "bs-1", Region := "", SelfLink := "" }

/-- A transport on which every call succeeds, with conversions that copy the
members, and a parser that rejects the link "bad". -/
def sampleWorld : World :=
  { ToAlpha := fun c => .ok { Name := c.Name, Region := c.Region, SelfLink := c.SelfLink },
    ToBeta := fun c => .ok { Name := c.Name, Region := c.Region, SelfLink := c.SelfLink },
    ToGA := fun c => .ok { Name := c.Name, Region := c.Region, SelfLink := c.SelfLink },
    jsonDecode := fun g => .ok g,
    jsonDecodeList := fun gs => .ok gs,
    exec := fun _ => none,
    get := fun _ => .ok sampleObj,
    list := fun _ => .ok [sampleObj],
    aggregatedList := fun _ => .ok [("zones/us-central1-a", [sampleObj, sampleBadObj])],
    ParseResourceURL := fun link =>
      if link = "bad" then (none, some (Err.upstream "unparsable"))
      else (some { Key := some zonalKey }, none) }

/-- A transport on which every call succeeds while the stable conversion and
the JSON transcoder fail. -/
def failingWorld : World :=
  { sampleWorld with
    ToGA := fun _ => .error (Err.upstream "cannot convert"),
    jsonDecode := fun _ => .error (Err.upstream "cannot decode"),
    jsonDecodeList := fun _ => .error (Err.upstream "cannot decode") }

/-! ## The type template (genTypes) -/

/-- One member of an emitted composite struct: its name, its Go type, the
content of its json tag, and whether it is an embedded member. -/
structure Member where
  Name : String
  GoType : String
  JsonTag : String
  Embedded : Bool
deriving DecidableEq, Repr

/-- An emitted composite struct. -/
structure EmittedType where
  Name : String
  Members : List Member
deriving DecidableEq, Repr

/-- The member rendered for one entry of .Fields (lines 162-171): the tag is
the wire name with omitempty, and with string when the member is named Id or
the descriptor asks for the string encoding. -/
def fieldMember (f : Field) : Member :=
  if f.Name = "Id" then
    { Name := f.Name, GoType := f.GoType, JsonTag := f.JsonName ++ ",omitempty,string",
      Embedded := false }
  else if f.JsonStringOverride then
    { Name := f.Name, GoType := f.GoType, JsonTag := f.JsonName ++ ",omitempty,string",
      Embedded := false }
  else
    { Name := f.Name, GoType := f.GoType, JsonTag := f.JsonName ++ ",omitempty",
      Embedded := false }

/-- The bookkeeping members rendered inside the IsMainService guard (lines
152-160). -/
def bookkeepingMembers (svc : ApiService) : List Member :=
  if svc.IsMainService then
    [{ Name := "Version", GoType := "meta.Version", JsonTag := "-", Embedded := false },
     { Name := "Scope", GoType := "meta.KeyType", JsonTag := "-", Embedded := false }]
  else []

/-- The embedded server response rendered inside the guard
and .IsMainService .HasCRUD (lines 172-174). -/
def envelopeMembers (svc : ApiService) : List Member :=
  if svc.IsMainService && svc.HasCRUD then
    [{ Name := "ServerResponse", GoType := "googleapi.ServerResponse", JsonTag := "-",
       Embedded := true }]
  else []

/-- The two members that close every struct (lines 175-176). -/
def sendHintMembers : List Member :=
  [{ Name := "ForceSendFields", GoType := "[]string", JsonTag := "-", Embedded := false },
   { Name := "NullFields", GoType := "[]string", JsonTag := "-", Embedded := false }]

/-- The struct rendered for one descriptor (lines 150-177), members in the
order of the template. -/
def genType (svc : ApiService) : EmittedType :=
  { Name := svc.Name,
    Members := bookkeepingMembers svc ++ svc.Fields.map fieldMember ++ envelopeMembers svc
      ++ sendHintMembers }

/-- Function genTypes: one struct per descriptor of the catalog. -/
def genTypes (all : List ApiService) : List EmittedType :=
  all.map genType

/-- A descriptor with two fields, one of them the identifier. -/
def sampleUrlMap : ApiService :=
  { Name := "UrlMap", VarName := "urlMap",
    Fields :=
      [{ Name := "Id", GoType := "uint64", JsonName := "id", Description := "",
         JsonStringOverride := false },
       { Name := "Name", GoType := "string", JsonName := "name", Description := "",
         JsonStringOverride := false }],
    IsMainService := true, HasCRUD := true, HasUpdate := true,
    IsDefaultZonalService := false, IsDefaultRegionalService := false,
    IsGroupResourceService := false,
    GetCloudProviderName := "UrlMaps", GetGroupResourceInfo := noGroupInfo }

/-! ## The entry point (main) -/

/-- The collaborators of main: the outcome of each rendering function (the
rendered text, or the value it panics with when the template fails), the
formatter process and the file system. -/
structure GenWorld where
  genHeader : Except String String
  genTypes : Except String String
  genFuncs : Except String String
  genTestHeader : Except String String
  genTests : Except String String
  gofmt : String → Except String String
  writeFile : String → String → Option String

/-- Function gofmtContent (lines 42-55): the formatted text, or a panic when the
formatter process fails. -/
def gofmtContent (g : GenWorld) (r : String) : Except String String :=
  match g.gofmt r with
  | .error err => .error err
  | .ok out => .ok out

/-- How a run of main ends: the output files whose write has completed, in
order, and the value of the panic that aborted the run, if any. -/
structure Run where
  written : List String
  panic : Option String
deriving DecidableEq, Repr

def wrapperPath : String := "./pkg/composite/gen.go"

def testPath : String := "./pkg/composite/gen_test.go"

/-- Function main (lines 962-983).  The five rendering calls fill the two
buffers; then the wrapper buffer is formatted and written, and only after that
the test buffer is formatted and written.  A write that fails is not counted
as written. -/
def main (g : GenWorld) : Run :=
  match g.genHeader with
  | .error p => { written := [], panic := some p }
  | .ok header =>
  match g.genTypes with
  | .error p => { written := [], panic := some p }
  | .ok types =>
  match g.genFuncs with
  | .error p => { written := [], panic := some p }
  | .ok funcs =>
  match g.genTestHeader with
  | .error p => { written := [], panic := some p }
  | .ok testHeader =>
  match g.genTests with
  | .error p => { written := [], panic := some p }
  | .ok tests =>
  match gofmtContent g (header ++ types ++ funcs) with
  | .error p => { written := [], panic := some p }
  | .ok formatted =>
  match g.writeFile wrapperPath formatted with
  | some err => { written := [], panic := some err }
  | none =>
  match gofmtContent g (testHeader ++ tests) with
  | .error p => { written := [wrapperPath], panic := some p }
  | .ok formattedTests =>
  match g.writeFile testPath formattedTests with
  | some err => { written := [wrapperPath], panic := some err }
  | none => { written := [wrapperPath, testPath], panic := none }

/-- Every rendering succeeds. -/
def renderingOk (g : GenWorld) : Bool :=
  match g.genHeader, g.genTypes, g.genFuncs, g.genTestHeader, g.genTests with
  | .ok _, .ok _, .ok _, .ok _, .ok _ => true
  | _, _, _, _, _ => false

/-- The run is all-or-nothing: it ends with both files written or with none. -/
def allOrNothing (r : Run) : Prop :=
  r.written = [] ∨ r.written = [wrapperPath, testPath]

instance (r : Run) : Decidable (allOrNothing r) := by
  unfold allOrNothing
  infer_instance

/-- A run in which every rendering and every write succeeds and the formatter
accepts every text. -/
def sampleGenWorld : GenWorld :=
  { genHeader := .ok "header", genTypes := .ok "types", genFuncs := .ok "funcs",
    genTestHeader := .ok "testHeader", genTests := .ok "tests",
    gofmt := fun r => .ok r,
    writeFile := fun _ _ => none }

/-- The same run with a formatter that rejects the test buffer. -/
def testFormatFails : GenWorld :=
  { sampleGenWorld with
    gofmt := fun r => if r = "testHeadertests" then .error "exit status 2" else .ok r }

/-- The same run with a formatter that rejects the wrapper buffer. -/
def wrapperFormatFails : GenWorld :=
  { sampleGenWorld with
    gofmt := fun r => if r = "headertypesfuncs" then .error "exit status 2" else .ok r }

/-- A run in which the template of genFuncs fails. -/
def renderFails : GenWorld :=
  { sampleGenWorld with genFuncs := .error "template: funcs" }

/-! ## The emitted tests (genTests) -/

/-- What the emitted test reads from a reflect.StructField; Anonymous marks an
embedded member. -/
structure StructField where
  Name : String
  TypeName : String
  Tag : String
  Anonymous : Bool
deriving DecidableEq, Repr

/-- The reflect.Type of a struct.  Fields are its own fields in declaration
order, an embedded member counting as the field named after its type.
Promoted is what the search through the embedded members yields for a name:
the field promoted from an embedded struct, if there is one. -/
structure StructType where
  Fields : List StructField
  Promoted : String → Option StructField

/-- Method NumField: the number of own fields; a Go int. -/
def NumField (t : StructType) : Int := t.Fields.length

/-- Method FieldByName: the field and whether it was found.  An own field with
the name wins; when there is none and the struct has an embedded member, the
name is searched among the promoted fields. -/
def FieldByName (t : StructType) (name : String) : Option StructField :=
  match t.Fields.find? (fun f => f.Name = name) with
  | some f => some f
  | none => if t.Fields.any (fun f => f.Anonymous) then t.Promoted name else none

/-- The type that reflection reports for an emitted composite struct; the
parameter promoted stands for the fields of its embedded member. -/
def reflectType (promoted : String → Option StructField) (t : EmittedType) : StructType :=
  { Fields := t.Members.map (fun m =>
      { Name := m.Name, TypeName := m.GoType, Tag := m.JsonTag, Anonymous := m.Embedded }),
    Promoted := promoted }

/-- One pass of the comparison loop of the emitted test (lines 898-904); the
result is the failure that stops the test, if any.  The helper compareFields
of package composite is a parameter. -/
def alphaFieldCheck (compareFields : StructField → StructField → Option String)
    (alphaType : StructType) (field : StructField) : Option String :=
  match FieldByName alphaType field.Name with
  | none => some ("Field " ++ field.Name ++ " not present in alpha type")
  | some lookupField => compareFields field lookupField

/-- The alpha checks of the test emitted for a main service (lines 889-905): the
count check, then the loop over the composite fields from index 2 on.  The
result is the failure that stops the test, if any. -/
def alphaChecks (compareFields : StructField → StructField → Option String)
    (compositeType alphaType : StructType) : Option String :=
  if NumField compositeType - 2 ≠ NumField alphaType then
    some "should contain the fields of the alpha type"
  else
    (compositeType.Fields.drop 2).findSome? (alphaFieldCheck compareFields alphaType)

/-- The test emitted for a main service (lines 881-916): the alpha checks, then
the two superset checks through the helper typeEquality of package composite,
which is a parameter. -/
def TestMain (compareFields : StructField → StructField → Option String)
    (typeEquality : StructType → StructType → Bool → Option String)
    (compositeType alphaType betaType gaType : StructType) : Option String :=
  match alphaChecks compareFields compositeType alphaType with
  | some failure => some failure
  | none =>
    match typeEquality betaType compositeType false with
    | some err => some err
    | none => typeEquality gaType compositeType false

/-- The one-to-one correspondence of the specification: the composite fields
after Version and Scope have the names of the own fields of the alpha type up
to order, and each has its namesake there with a matching type, and the other
way round. -/
def Corresponds (compareFields : StructField → StructField → Option String)
    (compositeType alphaType : StructType) : Prop :=
  ((compositeType.Fields.drop 2).map StructField.Name).Perm
      (alphaType.Fields.map StructField.Name)
    ∧ (∀ c ∈ compositeType.Fields.drop 2,
        ∃ a ∈ alphaType.Fields, a.Name = c.Name ∧ compareFields c a = none)
    ∧ (∀ a ∈ alphaType.Fields,
        ∃ c ∈ compositeType.Fields.drop 2, c.Name = a.Name ∧ compareFields c a = none)

/-- A comparison that accepts two fields with the same name and type name. -/
def sampleCompareFields (s1 s2 : StructField) : Option String :=
  if s1.Name = s2.Name ∧ s1.TypeName = s2.TypeName then none else some "fields differ"

/-- The fields of googleapi.ServerResponse, which every resource type of the
API embeds. -/
def serverResponseFields (name : String) : Option StructField :=
  if name = "HTTPStatusCode" then
    some { Name := "HTTPStatusCode", TypeName := "int", Tag := "", Anonymous := false }
  else if name = "Header" then
    some { Name := "Header", TypeName := "http.Header", Tag := "", Anonymous := false }
  else none

/-- An alpha type with the members of the sample UrlMap in another order. -/
def sampleAlphaUrlMap : StructType :=
  { Fields :=
      [{ Name := "Name", TypeName := "string", Tag := "name,omitempty", Anonymous := false },
       { Name := "Id", TypeName := "uint64", Tag := "id,omitempty,string", Anonymous := false },
       { Name := "ServerResponse", TypeName := "googleapi.ServerResponse", Tag := "-",
         Anonymous := true },
       { Name := "NullFields", TypeName := "[]string", Tag := "-", Anonymous := false },
       { Name := "ForceSendFields", TypeName := "[]string", Tag := "-", Anonymous := false }],
    Promoted := serverResponseFields }

/-- A descriptor of UrlMap that has drifted from the alpha type: it lists a
field Header where the alpha type has the field Name. -/
def sampleDriftedUrlMap : ApiService :=
  { sampleUrlMap with
    Fields :=
      [{ Name := "Id", GoType := "uint64", JsonName := "id", Description := "",
         JsonStringOverride := false },
       { Name := "Header", GoType := "http.Header", JsonName := "header", Description := "",
         JsonStringOverride := false }] }

/-! ## The conversion to a revision (ToVERSION) -/

structure CacheKeyPolicy where
  ForceSendFields : List String
deriving DecidableEq, Repr

structure BackendServiceCdnPolicy where
  CacheKeyPolicy : Option CacheKeyPolicy
  ForceSendFields : List String
deriving DecidableEq, Repr

structure BackendServiceIAP where
  ForceSendFields : List String
deriving DecidableEq, Repr

structure BackendServiceLogConfig where
  Enable : Bool
  ForceSendFields : List String
deriving DecidableEq, Repr

/-- The members of an object, composite or revision-specific, that the ToVERSION
block reads or writes; a nil pointer is none. -/
structure ServiceObj where
  CdnPolicy : Option BackendServiceCdnPolicy
  Iap : Option BackendServiceIAP
  LogConfig : Option BackendServiceLogConfig
deriving DecidableEq, Repr

/-- The Go zero value: every pointer nil. -/
def ServiceObj.zero : ServiceObj :=
  { CdnPolicy := none, Iap := none, LogConfig := none }

/-- How a call of an emitted ToVERSION method ends. -/
inductive Converted where
  | ok (x : ServiceObj)
  /-- Value of fmt.Errorf("error converting %T to compute LOWER type via JSON: %v", ...). -/
  | error (lower : String) (cause : Err)
  /-- The run-time panic of reading a member through a nil pointer. -/
  | nilDereference
deriving DecidableEq, Repr

/-- The patch of CdnPolicy (lines 837-842).  The appended list starts from the
ForceSendFields of the CdnPolicy of the composite object, which is read through
the pointer without a nil check. -/
def patchCdnPolicy (obj lower : ServiceObj) : Option ServiceObj :=
  match lower.CdnPolicy with
  | none => some lower
  | some cdn =>
    match obj.CdnPolicy with
    | none => none
    | some own =>
      some { lower with
        CdnPolicy := some
          { CacheKeyPolicy :=
              (match cdn.CacheKeyPolicy with
               | none => none
               | some _ =>
                   some { ForceSendFields := ["IncludeHost", "IncludeProtocol",
                     "IncludeQueryString", "QueryStringBlacklist", "QueryStringWhitelist"] }),
            ForceSendFields := own.ForceSendFields
              ++ ["NegativeCaching", "RequestCoalescing", "SignedUrlCacheMaxAgeSec",
                  "ServeWhileStale"] } }

/-- The patch of Iap (lines 843-845). -/
def patchIap (lower : ServiceObj) : ServiceObj :=
  match lower.Iap with
  | none => lower
  | some _ =>
      { lower with
        Iap := some { ForceSendFields := ["Enabled", "Oauth2ClientId", "Oauth2ClientSecret"] } }

/-- The patch of LogConfig (lines 846-851). -/
def patchLogConfig (lower : ServiceObj) : ServiceObj :=
  match lower.LogConfig with
  | none => lower
  | some lc =>
      if lc.Enable then
        { lower with LogConfig := some { lc with ForceSendFields := ["Enable", "SampleRate"] } }
      else
        { lower with LogConfig := some { lc with ForceSendFields := ["Enable"] } }

/-- The force-send patch (lines 836-851); none is the nil dereference. -/
def forceSendPatch (obj lower : ServiceObj) : Option ServiceObj :=
  match patchCdnPolicy obj lower with
  | none => none
  | some l1 => some (patchLogConfig (patchIap l1))

/-- Block ToVERSION (lines 828-855) as rendered for the descriptor svc and the
entry version of the revision table.  The parameter copy is copyViaJSON into a
fresh value of the revision type.  The patch is rendered when the name of the
descriptor is BackendService. -/
def ToVersion (svc : ApiService) (version : String)
    (copy : ServiceObj → Except Err ServiceObj) (obj : ServiceObj) : Converted :=
  match copy obj with
  | .error err => Converted.error version.toLower err
  | .ok lower =>
    if svc.Name = "BackendService" then
      match forceSendPatch obj lower with
      | none => Converted.nilDereference
      | some patched => Converted.ok patched
    else Converted.ok lower

/-- The conversion test emitted for a main service and one revision (lines
922-933): the zero composite value is converted and compared with the zero
value of the revision type.  The result is the failure, if any. -/
def TestToVersion (svc : ApiService) (version : String)
    (copy : ServiceObj → Except Err ServiceObj) : Option String :=
  match ToVersion svc version copy ServiceObj.zero with
  | Converted.ok result =>
      if result = ServiceObj.zero then none
      else some (svc.Name ++ ".To" ++ version ++ "() differs from the zero value")
  | _ => some (svc.Name ++ ".To" ++ version ++ "() error")

/-- A structural copy that keeps every member. -/
def sampleCopy (obj : ServiceObj) : Except Err ServiceObj := .ok obj

/-- A backend service with logging enabled and a CDN policy that carries a cache
key policy and a hint of its own. -/
def sampleServiceObj : ServiceObj :=
  { CdnPolicy := some { CacheKeyPolicy := some { ForceSendFields := [] },
                        ForceSendFields := ["CacheMode"] },
    Iap := some { ForceSendFields := [] },
    LogConfig := some { Enable := true, ForceSendFields := [] } }

/-- The error part of what the transport hands back for the call c of an
invocation: the result of Insert, Update, Delete, Attach or Detach, or the
error that comes with the object, the list or the map of the other calls. -/
def transportErr (w : World) (inv : Invocation) (c : Call) : Option Err :=
  match inv with
  | .Create _ _ => w.exec c
  | .Update _ _ => w.exec c
  | .Delete _ _ => w.exec c
  | .Attach _ _ _ => w.exec c
  | .Detach _ _ _ => w.exec c
  | .Get _ _ =>
      (match w.get c with
       | .error e => some e
       | .ok _ => none)
  | .List _ _ =>
      (match w.list c with
       | .error e => some e
       | .ok _ => none)
  | .ListMembers _ _ _ =>
      (match w.list c with
       | .error e => some e
       | .ok _ => none)
  | .AggregateList _ =>
      (match w.aggregatedList c with
       | .error e => some e
       | .ok _ => none)

/-- A transport that rejects every call. -/
def rejectingWorld : World :=
  { sampleWorld with
    exec := fun _ => some (Err.upstream "notFound"),
    get := fun _ => .error (Err.upstream "notFound"),
    list := fun _ => .error (Err.upstream "notFound"),
    aggregatedList := fun _ => .error (Err.upstream "notFound") }

/-! # Theorems -/

/-! ## Template variables at the point where a descriptor is rendered -/

theorem assignVars_onlyZonal (tv : TemplateVars) (svc : ApiService) :
    (assignVars tv svc).onlyZonalKeySupported = svc.IsDefaultZonalService := by
  unfold assignVars
  split_ifs with h1 h2 <;> simp_all

theorem assignVars_regionalFiller (tv : TemplateVars) (svc : ApiService)
    (h : svc.IsDefaultZonalService = false) :
    (assignVars tv svc).regionalKeyFiller
      = if svc.IsDefaultRegionalService then "" else "Region" := by
  unfold assignVars
  split_ifs <;> simp_all

theorem assignVars_globalFiller (tv : TemplateVars) (svc : ApiService)
    (h : svc.IsDefaultZonalService = false) :
    (assignVars tv svc).globalKeyFiller
      = if svc.IsDefaultRegionalService then "Global" else "" := by
  unfold assignVars
  split_ifs <;> simp_all

theorem versionAlpha_ne_beta : VersionAlpha ≠ VersionBeta := by decide

/-- C1: the CRUD operations of a zonal-only resource reject every key that is
not Zonal with the validation error, a nil result for Get and List, and no step
taken at all (so no network call), whatever revision is requested. -/
theorem zonalOnly_rejects_nonzonal_key (before : List ApiService) (svc : ApiService)
    (w : World) (key : Key)
    (hz : svc.IsDefaultZonalService = true) (hk : key.Typ ≠ KeyType.Zonal) :
    (∀ obj, Create (renderVars before svc) svc w key obj
        = { value := some (Err.keyNotValid key svc.Name key.Name), trace := [] })
    ∧ (∀ obj, Update (renderVars before svc) svc w key obj
        = { value := some (Err.keyNotValid key svc.Name key.Name), trace := [] })
    ∧ (∀ version, Delete (renderVars before svc) svc w key version
        = { value := some (Err.keyNotValid key svc.Name key.Name), trace := [] })
    ∧ (∀ version, Get (renderVars before svc) svc w key version
        = { value := .error (Err.keyNotValid key svc.Name key.Name), trace := [] })
    ∧ (∀ version, ListProvider (renderVars before svc) svc w key version
        = { value := .error (Err.keyNotValid key svc.Name key.Name), trace := [] }) := by
  have hc : crudKeyCheck (renderVars before svc) svc key
      = some (Err.keyNotValid key svc.Name key.Name) := by
    unfold crudKeyCheck renderVars
    rw [assignVars_onlyZonal, hz]
    unfold zonalKeyCheck
    cases hT : key.Typ <;> simp_all
  refine ⟨?_, ?_, ?_, ?_, ?_⟩
  · intro obj; unfold Create; rw [hc]
  · intro obj; unfold Update; rw [hc]
  · intro version; unfold Delete; rw [hc]
  · intro version; unfold Get; rw [hc]
  · intro version; unfold ListProvider; rw [hc]

theorem renderVars_onlyZonal (before : List ApiService) (svc : ApiService) :
    (renderVars before svc).onlyZonalKeySupported = svc.IsDefaultZonalService :=
  assignVars_onlyZonal _ _

theorem crudKeyCheck_renderVars (before : List ApiService) (svc : ApiService) (key : Key) :
    crudKeyCheck (renderVars before svc) svc key
      = if svc.IsDefaultZonalService then zonalKeyCheck svc key else none := by
  unfold crudKeyCheck
  rw [renderVars_onlyZonal]

theorem zonalKeyCheck_zonal (svc : ApiService) (key : Key) (h : key.Typ = KeyType.Zonal) :
    zonalKeyCheck svc key = none := by
  unfold zonalKeyCheck
  rw [h]

theorem zonalKeyCheck_other (svc : ApiService) (key : Key) (h : key.Typ ≠ KeyType.Zonal) :
    zonalKeyCheck svc key = some (Err.keyNotValid key svc.Name key.Name) := by
  unfold zonalKeyCheck
  cases hT : key.Typ <;> simp_all

/-! ## The scope part of each CRUD block -/

/-- The three ways a CRUD block reaches its accessor, each agreeing with the
scope rule: the zonal branch, the Regional case with the regional filler, the
default case with the global filler. -/
theorem scope_cases (before : List ApiService) (svc : ApiService) (t : KeyType) :
    (svc.IsDefaultZonalService = true ∧ scopeFiller svc t = "")
    ∨ (svc.IsDefaultZonalService = false ∧ t = KeyType.Regional
        ∧ (renderVars before svc).regionalKeyFiller = scopeFiller svc t)
    ∨ (svc.IsDefaultZonalService = false ∧ t ≠ KeyType.Regional
        ∧ (renderVars before svc).globalKeyFiller = scopeFiller svc t) := by
  unfold scopeFiller
  cases hz : svc.IsDefaultZonalService
  · have h1 := assignVars_regionalFiller (varsAfter before) svc hz
    have h2 := assignVars_globalFiller (varsAfter before) svc hz
    unfold renderVars
    by_cases ht : t = KeyType.Regional
    · right; left
      cases hr : svc.IsDefaultRegionalService <;> simp_all
    · right; right
      cases hr : svc.IsDefaultRegionalService <;> simp_all
  · left; simp

theorem createCall_props (before : List ApiService) (svc : ApiService) (client : Client)
    (key : Key) (x : GceObj) :
    (createCall (renderVars before svc) svc client key x).client = client
    ∧ (createCall (renderVars before svc) svc client key x).service = svc.GetCloudProviderName
    ∧ (createCall (renderVars before svc) svc client key x).filler = scopeFiller svc key.Typ
    ∧ ((createCall (renderVars before svc) svc client key x).request = some x
        ∨ (createCall (renderVars before svc) svc client key x).request
            = some { x with Region := key.Region }) := by
  unfold createCall
  rw [renderVars_onlyZonal]
  rcases scope_cases before svc key.Typ with ⟨hz, hf⟩ | ⟨hz, ht, hf⟩ | ⟨hz, ht, hf⟩
  · simp [hz, hf]
  · rw [ht] at hf ⊢
    simp [hz, hf]
  · cases hT : key.Typ <;> simp_all

theorem updateCall_props (before : List ApiService) (svc : ApiService) (client : Client)
    (key : Key) (x : GceObj) :
    (updateCall (renderVars before svc) svc client key x).client = client
    ∧ (updateCall (renderVars before svc) svc client key x).service = svc.GetCloudProviderName
    ∧ (updateCall (renderVars before svc) svc client key x).filler = scopeFiller svc key.Typ
    ∧ (updateCall (renderVars before svc) svc client key x).request = some x := by
  unfold updateCall
  rw [renderVars_onlyZonal]
  rcases scope_cases before svc key.Typ with ⟨hz, hf⟩ | ⟨hz, ht, hf⟩ | ⟨hz, ht, hf⟩
  · simp [hz, hf]
  · rw [ht] at hf ⊢
    simp [hz, hf]
  · cases hT : key.Typ <;> simp_all

theorem deleteCall_props (before : List ApiService) (svc : ApiService) (client : Client)
    (key : Key) :
    (deleteCall (renderVars before svc) svc client key).client = client
    ∧ (deleteCall (renderVars before svc) svc client key).service = svc.GetCloudProviderName
    ∧ (deleteCall (renderVars before svc) svc client key).filler = scopeFiller svc key.Typ
    ∧ (deleteCall (renderVars before svc) svc client key).request = none := by
  unfold deleteCall
  rw [renderVars_onlyZonal]
  rcases scope_cases before svc key.Typ with ⟨hz, hf⟩ | ⟨hz, ht, hf⟩ | ⟨hz, ht, hf⟩
  · simp [hz, hf]
  · rw [ht] at hf ⊢
    simp [hz, hf]
  · cases hT : key.Typ <;> simp_all

theorem getCall_props (before : List ApiService) (svc : ApiService) (client : Client)
    (key : Key) :
    (getCall (renderVars before svc) svc client key).client = client
    ∧ (getCall (renderVars before svc) svc client key).service = svc.GetCloudProviderName
    ∧ (getCall (renderVars before svc) svc client key).filler = scopeFiller svc key.Typ
    ∧ (getCall (renderVars before svc) svc client key).request = none := by
  unfold getCall
  rw [renderVars_onlyZonal]
  rcases scope_cases before svc key.Typ with ⟨hz, hf⟩ | ⟨hz, ht, hf⟩ | ⟨hz, ht, hf⟩
  · simp [hz, hf]
  · rw [ht] at hf ⊢
    simp [hz, hf]
  · cases hT : key.Typ <;> simp_all

theorem listCall_props (before : List ApiService) (svc : ApiService) (client : Client)
    (key : Key) :
    (listCall (renderVars before svc) svc client key).client = client
    ∧ (listCall (renderVars before svc) svc client key).service = svc.GetCloudProviderName
    ∧ (listCall (renderVars before svc) svc client key).filler = scopeFiller svc key.Typ
    ∧ (listCall (renderVars before svc) svc client key).request = none := by
  unfold listCall
  rw [renderVars_onlyZonal]
  rcases scope_cases before svc key.Typ with ⟨hz, hf⟩ | ⟨hz, ht, hf⟩ | ⟨hz, ht, hf⟩
  · simp [hz, hf]
  · rw [ht] at hf ⊢
    simp [hz, hf]
  · cases hT : key.Typ <;> simp_all

/-! ## The revision switch of each block -/

theorem getSwitch_eq (tv : TemplateVars) (svc : ApiService) (key : Key) (version : Version) :
    getSwitch tv svc key version = getCall tv svc (clientFor version) key := by
  unfold getSwitch clientFor
  split_ifs <;> rfl

theorem listSwitch_eq (tv : TemplateVars) (svc : ApiService) (key : Key) (version : Version) :
    listSwitch tv svc key version = listCall tv svc (clientFor version) key := by
  unfold listSwitch clientFor
  split_ifs <;> rfl

theorem AggregateList_eq (svc : ApiService) (w : World) (version : Version) :
    AggregateList svc w version = aggBranch svc w version (clientFor version) := by
  unfold AggregateList clientFor
  split_ifs <;> rfl

theorem Delete_called (tv : TemplateVars) (svc : ApiService) (w : World) (key : Key)
    (version : Version) (hk : crudKeyCheck tv svc key = none) :
    Delete tv svc w key version
      = Observe [] (deleteCall tv svc (clientFor version) key)
          (w.exec (deleteCall tv svc (clientFor version) key)) := by
  unfold Delete
  rw [hk]
  unfold clientFor
  split_ifs <;> rfl

theorem Create_called (tv : TemplateVars) (svc : ApiService) (w : World) (key : Key)
    (obj : Composite) (x : GceObj)
    (hk : crudKeyCheck tv svc key = none)
    (hx : toRevision w (clientFor obj.Version) obj = .ok x) :
    Create tv svc w key obj
      = Observe [Event.convert (clientFor obj.Version)]
          (createCall tv svc (clientFor obj.Version) key x)
          (w.exec (createCall tv svc (clientFor obj.Version) key x)) := by
  unfold Create
  rw [hk]
  unfold clientFor at hx ⊢
  split_ifs at hx ⊢ <;> simp_all [toRevision]

theorem Create_convertFailed (tv : TemplateVars) (svc : ApiService) (w : World) (key : Key)
    (obj : Composite) (e : Err)
    (hk : crudKeyCheck tv svc key = none)
    (hx : toRevision w (clientFor obj.Version) obj = .error e) :
    Create tv svc w key obj
      = { value := some e, trace := [Event.convert (clientFor obj.Version)] } := by
  unfold Create
  rw [hk]
  unfold clientFor at hx ⊢
  split_ifs at hx ⊢ <;> simp_all [toRevision]

theorem Update_called (tv : TemplateVars) (svc : ApiService) (w : World) (key : Key)
    (obj : Composite) (x : GceObj)
    (hk : crudKeyCheck tv svc key = none)
    (hx : toRevision w (clientFor obj.Version) obj = .ok x) :
    Update tv svc w key obj
      = Observe [Event.convert (clientFor obj.Version)]
          (updateCall tv svc (clientFor obj.Version) key x)
          (w.exec (updateCall tv svc (clientFor obj.Version) key x)) := by
  unfold Update
  rw [hk]
  unfold clientFor at hx ⊢
  split_ifs at hx ⊢ <;> simp_all [toRevision]

theorem Update_convertFailed (tv : TemplateVars) (svc : ApiService) (w : World) (key : Key)
    (obj : Composite) (e : Err)
    (hk : crudKeyCheck tv svc key = none)
    (hx : toRevision w (clientFor obj.Version) obj = .error e) :
    Update tv svc w key obj
      = { value := some e, trace := [Event.convert (clientFor obj.Version)] } := by
  unfold Update
  rw [hk]
  unfold clientFor at hx ⊢
  split_ifs at hx ⊢ <;> simp_all [toRevision]

theorem Attach_called (svc : ApiService) (w : World) (key : Key) (version : Version)
    (req : Composite) (x : GceObj)
    (hk : zonalKeyCheck svc key = none)
    (hx : toRevision w (clientFor version) req = .ok x) :
    Attach svc w key version req
      = Observe [Event.convert (clientFor version)]
          (groupCall svc (clientFor version) svc.GetGroupResourceInfo.AttachFuncName key x)
          (w.exec
            (groupCall svc (clientFor version) svc.GetGroupResourceInfo.AttachFuncName key x)) := by
  unfold Attach
  rw [hk]
  unfold clientFor at hx ⊢
  split_ifs at hx ⊢ <;> simp_all [toRevision]

theorem Attach_convertFailed (svc : ApiService) (w : World) (key : Key) (version : Version)
    (req : Composite) (e : Err)
    (hk : zonalKeyCheck svc key = none)
    (hx : toRevision w (clientFor version) req = .error e) :
    Attach svc w key version req
      = { value := some e, trace := [Event.convert (clientFor version)] } := by
  unfold Attach
  rw [hk]
  unfold clientFor at hx ⊢
  split_ifs at hx ⊢ <;> simp_all [toRevision]

theorem Detach_called (svc : ApiService) (w : World) (key : Key) (version : Version)
    (req : Composite) (x : GceObj)
    (hk : zonalKeyCheck svc key = none)
    (hx : toRevision w (clientFor version) req = .ok x) :
    Detach svc w key version req
      = Observe [Event.convert (clientFor version)]
          (groupCall svc (clientFor version) svc.GetGroupResourceInfo.DetachFuncName key x)
          (w.exec
            (groupCall svc (clientFor version) svc.GetGroupResourceInfo.DetachFuncName key x)) := by
  unfold Detach
  rw [hk]
  unfold clientFor at hx ⊢
  split_ifs at hx ⊢ <;> simp_all [toRevision]

theorem Detach_convertFailed (svc : ApiService) (w : World) (key : Key) (version : Version)
    (req : Composite) (e : Err)
    (hk : zonalKeyCheck svc key = none)
    (hx : toRevision w (clientFor version) req = .error e) :
    Detach svc w key version req
      = { value := some e, trace := [Event.convert (clientFor version)] } := by
  unfold Detach
  rw [hk]
  unfold clientFor at hx ⊢
  split_ifs at hx ⊢ <;> simp_all [toRevision]

theorem ListMembers_called (svc : ApiService) (w : World) (key : Key) (version : Version)
    (req : Composite) (x : GceObj)
    (hk : zonalKeyCheck svc key = none)
    (hx : toRevision w (clientFor version) req = .ok x) :
    ListMembers svc w key version req
      = listMembersTail svc w version [Event.convert (clientFor version)]
          (groupCall svc (clientFor version) svc.GetGroupResourceInfo.ListFuncName key x) := by
  unfold ListMembers
  rw [hk]
  unfold clientFor at hx ⊢
  split_ifs at hx ⊢ <;> simp_all [toRevision]

theorem ListMembers_convertFailed (svc : ApiService) (w : World) (key : Key)
    (version : Version) (req : Composite) (e : Err)
    (hk : zonalKeyCheck svc key = none)
    (hx : toRevision w (clientFor version) req = .error e) :
    ListMembers svc w key version req
      = { value := .error e, trace := [Event.convert (clientFor version)] } := by
  unfold ListMembers
  rw [hk]
  unfold clientFor at hx ⊢
  split_ifs at hx ⊢ <;> simp_all [toRevision]


theorem invoke_rejected (before : List ApiService) (svc : ApiService) (w : World)
    (inv : Invocation) (h : keyValid svc inv = false) :
    ∃ key, inv.key = some key ∧ key.Typ ≠ KeyType.Zonal
      ∧ (invoke (renderVars before svc) svc w inv).trace = []
      ∧ (invoke (renderVars before svc) svc w inv).value.err
          = some (Err.keyNotValid key svc.Name key.Name) := by
  cases inv with
  | Create key obj =>
      simp [keyValid, Invocation.key, Invocation.kind, OpKind.isGroupKeyed] at h
      refine ⟨key, rfl, h.2, ?_, ?_⟩ <;>
        simp [invoke, Create, crudKeyCheck_renderVars, h.1, zonalKeyCheck_other _ _ h.2,
          Result.err]
  | Update key obj =>
      simp [keyValid, Invocation.key, Invocation.kind, OpKind.isGroupKeyed] at h
      refine ⟨key, rfl, h.2, ?_, ?_⟩ <;>
        simp [invoke, Update, crudKeyCheck_renderVars, h.1, zonalKeyCheck_other _ _ h.2,
          Result.err]
  | Delete key version =>
      simp [keyValid, Invocation.key, Invocation.kind, OpKind.isGroupKeyed] at h
      refine ⟨key, rfl, h.2, ?_, ?_⟩ <;>
        simp [invoke, Delete, crudKeyCheck_renderVars, h.1, zonalKeyCheck_other _ _ h.2,
          Result.err]
  | Get key version =>
      simp [keyValid, Invocation.key, Invocation.kind, OpKind.isGroupKeyed] at h
      refine ⟨key, rfl, h.2, ?_, ?_⟩ <;>
        simp [invoke, Get, crudKeyCheck_renderVars, h.1, zonalKeyCheck_other _ _ h.2,
          Result.err]
  | List key version =>
      simp [keyValid, Invocation.key, Invocation.kind, OpKind.isGroupKeyed] at h
      refine ⟨key, rfl, h.2, ?_, ?_⟩ <;>
        simp [invoke, ListProvider, crudKeyCheck_renderVars, h.1, zonalKeyCheck_other _ _ h.2,
          Result.err]
  | Attach key version req =>
      simp [keyValid, Invocation.key, Invocation.kind, OpKind.isGroupKeyed] at h
      refine ⟨key, rfl, h, ?_, ?_⟩ <;>
        simp [invoke, Attach, zonalKeyCheck_other _ _ h, Result.err]
  | Detach key version req =>
      simp [keyValid, Invocation.key, Invocation.kind, OpKind.isGroupKeyed] at h
      refine ⟨key, rfl, h, ?_, ?_⟩ <;>
        simp [invoke, Detach, zonalKeyCheck_other _ _ h, Result.err]
  | ListMembers key version req =>
      simp [keyValid, Invocation.key, Invocation.kind, OpKind.isGroupKeyed] at h
      refine ⟨key, rfl, h, ?_, ?_⟩ <;>
        simp [invoke, ListMembers, zonalKeyCheck_other _ _ h, Result.err]
  | AggregateList version =>
      simp [keyValid, Invocation.key] at h

theorem keyValid_crud (before : List ApiService) (svc : ApiService) (inv : Invocation)
    (key : Key) (hk : inv.key = some key) (hc : inv.kind.isCRUD = true)
    (h : keyValid svc inv = true) :
    crudKeyCheck (renderVars before svc) svc key = none := by
  rw [crudKeyCheck_renderVars]
  cases inv <;>
    simp_all [keyValid, Invocation.key, Invocation.kind, OpKind.isGroupKeyed, OpKind.isCRUD]
  all_goals
    intro hz
    exact zonalKeyCheck_zonal _ _ (by simp_all)

theorem keyValid_group (svc : ApiService) (inv : Invocation)
    (key : Key) (hk : inv.key = some key) (hc : inv.kind.isGroupKeyed = true)
    (h : keyValid svc inv = true) :
    zonalKeyCheck svc key = none := by
  apply zonalKeyCheck_zonal
  cases inv <;>
    simp_all [keyValid, Invocation.key, Invocation.kind, OpKind.isGroupKeyed]


theorem outboundOk_some (w : World) (inv : Invocation) (x : Composite)
    (hx : inv.outbound = some x) (ho : outboundOk w inv = true) :
    ∃ y, toRevision w (clientFor inv.version) x = .ok y := by
  unfold outboundOk at ho
  rw [hx] at ho
  cases hy : toRevision w (clientFor inv.version) x with
  | ok y => exact ⟨y, rfl⟩
  | error e => simp [hy] at ho

theorem invoke_convertFailed (before : List ApiService) (svc : ApiService) (w : World)
    (inv : Invocation) (x : Composite) (e : Err)
    (h : keyValid svc inv = true) (hx : inv.outbound = some x)
    (he : toRevision w (clientFor inv.version) x = .error e) :
    (invoke (renderVars before svc) svc w inv).trace = [Event.convert (clientFor inv.version)]
      ∧ (invoke (renderVars before svc) svc w inv).value.err = some e := by
  cases inv with
  | Create key obj =>
      have hk := keyValid_crud before svc (Invocation.Create key obj) key rfl rfl h
      simp only [Invocation.outbound, Option.some.injEq] at hx
      subst hx
      simp only [Invocation.version] at he
      simp [invoke, Create_convertFailed _ _ _ _ _ e hk he, Invocation.version, Result.err]
  | Update key obj =>
      have hk := keyValid_crud before svc (Invocation.Update key obj) key rfl rfl h
      simp only [Invocation.outbound, Option.some.injEq] at hx
      subst hx
      simp only [Invocation.version] at he
      simp [invoke, Update_convertFailed _ _ _ _ _ e hk he, Invocation.version, Result.err]
  | Attach key version req =>
      have hk := keyValid_group svc (Invocation.Attach key version req) key rfl rfl h
      simp only [Invocation.outbound, Option.some.injEq] at hx
      subst hx
      simp only [Invocation.version] at he
      simp [invoke, Attach_convertFailed _ _ _ _ _ e hk he, Invocation.version, Result.err]
  | Detach key version req =>
      have hk := keyValid_group svc (Invocation.Detach key version req) key rfl rfl h
      simp only [Invocation.outbound, Option.some.injEq] at hx
      subst hx
      simp only [Invocation.version] at he
      simp [invoke, Detach_convertFailed _ _ _ _ _ e hk he, Invocation.version, Result.err]
  | ListMembers key version req =>
      have hk := keyValid_group svc (Invocation.ListMembers key version req) key rfl rfl h
      simp only [Invocation.outbound, Option.some.injEq] at hx
      subst hx
      simp only [Invocation.version] at he
      simp [invoke, ListMembers_convertFailed _ _ _ _ _ e hk he, Invocation.version, Result.err]
  | Delete key version => simp [Invocation.outbound] at hx
  | Get key version => simp [Invocation.outbound] at hx
  | List key version => simp [Invocation.outbound] at hx
  | AggregateList version => simp [Invocation.outbound] at hx

theorem invoke_called (before : List ApiService) (svc : ApiService) (w : World)
    (inv : Invocation) (h : keyValid svc inv = true) (ho : outboundOk w inv = true) :
    ∃ c o, CallFacts svc w inv (invoke (renderVars before svc) svc w inv) c o := by
  unfold CallFacts
  cases inv with
  | Create key obj =>
      have hk := keyValid_crud before svc (Invocation.Create key obj) key rfl rfl h
      obtain ⟨y, hy⟩ := outboundOk_some w (Invocation.Create key obj) obj rfl ho
      simp only [Invocation.version] at hy
      obtain ⟨p1, p2, p3, p4⟩ := createCall_props before svc (clientFor obj.Version) key y
      refine ⟨createCall (renderVars before svc) svc (clientFor obj.Version) key y,
        w.exec (createCall (renderVars before svc) svc (clientFor obj.Version) key y), ?_, p1, p2, ?_, ?_, ?_, ?_⟩
      · simp [invoke, Create_called _ _ _ _ _ y hk hy, Observe, convertSteps,
          Invocation.outbound, Invocation.version]
      · simp [expectedFiller, Invocation.key, Invocation.kind, OpKind.isCRUD, p3]
      · intro e he
        simp [invoke, Create_called _ _ _ _ _ y hk hy, Observe, Result.err, he]
      · intro s hs
        simp [invoke, Create_called _ _ _ _ _ y hk hy, Observe] at hs
        exact hs.symm
      · intro r hr
        refine ⟨obj, y, rfl, hy, ?_⟩
        rcases p4 with p4 | p4
        · left; rw [p4] at hr; exact (Option.some.inj hr).symm
        · right; rw [p4] at hr; exact ⟨key, rfl, (Option.some.inj hr).symm⟩
  | Update key obj =>
      have hk := keyValid_crud before svc (Invocation.Update key obj) key rfl rfl h
      obtain ⟨y, hy⟩ := outboundOk_some w (Invocation.Update key obj) obj rfl ho
      simp only [Invocation.version] at hy
      obtain ⟨p1, p2, p3, p4⟩ := updateCall_props before svc (clientFor obj.Version) key y
      refine ⟨updateCall (renderVars before svc) svc (clientFor obj.Version) key y,
        w.exec (updateCall (renderVars before svc) svc (clientFor obj.Version) key y), ?_, p1, p2, ?_, ?_, ?_, ?_⟩
      · simp [invoke, Update_called _ _ _ _ _ y hk hy, Observe, convertSteps,
          Invocation.outbound, Invocation.version]
      · simp [expectedFiller, Invocation.key, Invocation.kind, OpKind.isCRUD, p3]
      · intro e he
        simp [invoke, Update_called _ _ _ _ _ y hk hy, Observe, Result.err, he]
      · intro s hs
        simp [invoke, Update_called _ _ _ _ _ y hk hy, Observe] at hs
        exact hs.symm
      · intro r hr
        refine ⟨obj, y, rfl, hy, ?_⟩
        left; rw [p4] at hr; exact (Option.some.inj hr).symm
  | Delete key version =>
      have hk := keyValid_crud before svc (Invocation.Delete key version) key rfl rfl h
      obtain ⟨p1, p2, p3, p4⟩ := deleteCall_props before svc (clientFor version) key
      refine ⟨deleteCall (renderVars before svc) svc (clientFor version) key,
        w.exec (deleteCall (renderVars before svc) svc (clientFor version) key),
        ?_, p1, p2, ?_, ?_, ?_, ?_⟩
      · simp [invoke, Delete_called _ _ _ _ _ hk, Observe, convertSteps, Invocation.outbound]
      · simp [expectedFiller, Invocation.key, Invocation.kind, OpKind.isCRUD, p3]
      · intro e he
        simp [invoke, Delete_called _ _ _ _ _ hk, Observe, Result.err, he]
      · intro s hs
        simp [invoke, Delete_called _ _ _ _ _ hk, Observe] at hs
        exact hs.symm
      · intro r hr
        rw [p4] at hr
        cases hr
  | Get key version =>
      have hk := keyValid_crud before svc (Invocation.Get key version) key rfl rfl h
      obtain ⟨p1, p2, p3, p4⟩ := getCall_props before svc (clientFor version) key
      cases hg : w.get (getCall (renderVars before svc) svc (clientFor version) key) with
      | error e0 =>
          refine ⟨getCall (renderVars before svc) svc (clientFor version) key, some e0, ?_, p1, p2, ?_, ?_, ?_, ?_⟩
          · simp [invoke, Get, hk, getSwitch_eq, hg, Observe, convertSteps,
              Invocation.outbound]
          · simp [expectedFiller, Invocation.key, Invocation.kind, OpKind.isCRUD, p3]
          · intro e he
            simp [invoke, Get, hk, getSwitch_eq, hg, Result.err] at he ⊢
            exact he
          · intro s hs
            simp [invoke] at hs
          · intro r hr
            rw [p4] at hr
            cases hr
      | ok g =>
          refine ⟨getCall (renderVars before svc) svc (clientFor version) key, none, ?_, p1, p2, ?_, ?_, ?_, ?_⟩
          · cases ht : toName svc.Name w g <;>
              simp [invoke, Get, hk, getSwitch_eq, hg, ht, Observe, convertSteps,
                Invocation.outbound]
          · simp [expectedFiller, Invocation.key, Invocation.kind, OpKind.isCRUD, p3]
          · intro e he
            cases he
          · intro s hs
            simp [invoke] at hs
          · intro r hr
            rw [p4] at hr
            cases hr
  | List key version =>
      have hk := keyValid_crud before svc (Invocation.List key version) key rfl rfl h
      obtain ⟨p1, p2, p3, p4⟩ := listCall_props before svc (clientFor version) key
      cases hg : w.list (listCall (renderVars before svc) svc (clientFor version) key) with
      | error e0 =>
          refine ⟨listCall (renderVars before svc) svc (clientFor version) key, some e0, ?_, p1, p2, ?_, ?_, ?_, ?_⟩
          · simp [invoke, ListProvider, hk, listSwitch_eq, hg, Observe, convertSteps,
              Invocation.outbound]
          · simp [expectedFiller, Invocation.key, Invocation.kind, OpKind.isCRUD, p3]
          · intro e he
            simp [invoke, ListProvider, hk, listSwitch_eq, hg, Result.err] at he ⊢
            exact he
          · intro s hs
            simp [invoke] at hs
          · intro r hr
            rw [p4] at hr
            cases hr
      | ok g =>
          refine ⟨listCall (renderVars before svc) svc (clientFor version) key, none, ?_, p1, p2, ?_, ?_, ?_, ?_⟩
          · cases ht : toNameList svc.Name w g <;>
              simp [invoke, ListProvider, hk, listSwitch_eq, hg, ht, Observe, convertSteps,
                Invocation.outbound]
          · simp [expectedFiller, Invocation.key, Invocation.kind, OpKind.isCRUD, p3]
          · intro e he
            cases he
          · intro s hs
            simp [invoke] at hs
          · intro r hr
            rw [p4] at hr
            cases hr
  | Attach key version req =>
      have hk := keyValid_group svc (Invocation.Attach key version req) key rfl rfl h
      obtain ⟨y, hy⟩ := outboundOk_some w (Invocation.Attach key version req) req rfl ho
      simp only [Invocation.version] at hy
      refine ⟨groupCall svc (clientFor version) svc.GetGroupResourceInfo.AttachFuncName key y,
        w.exec (groupCall svc (clientFor version) svc.GetGroupResourceInfo.AttachFuncName key y), ?_, rfl, rfl, ?_, ?_, ?_, ?_⟩
      · simp [invoke, Attach_called _ _ _ _ _ y hk hy, Observe, convertSteps,
          Invocation.outbound, Invocation.version]
      · simp [expectedFiller, Invocation.key, Invocation.kind, OpKind.isCRUD, groupCall]
      · intro e he
        simp [invoke, Attach_called _ _ _ _ _ y hk hy, Observe, Result.err, he]
      · intro s hs
        simp [invoke, Attach_called _ _ _ _ _ y hk hy, Observe] at hs
        exact hs.symm
      · intro r hr
        refine ⟨req, y, rfl, hy, ?_⟩
        left
        simp [groupCall] at hr
        exact hr.symm
  | Detach key version req =>
      have hk := keyValid_group svc (Invocation.Detach key version req) key rfl rfl h
      obtain ⟨y, hy⟩ := outboundOk_some w (Invocation.Detach key version req) req rfl ho
      simp only [Invocation.version] at hy
      refine ⟨groupCall svc (clientFor version) svc.GetGroupResourceInfo.DetachFuncName key y,
        w.exec (groupCall svc (clientFor version) svc.GetGroupResourceInfo.DetachFuncName key y), ?_, rfl, rfl, ?_, ?_, ?_, ?_⟩
      · simp [invoke, Detach_called _ _ _ _ _ y hk hy, Observe, convertSteps,
          Invocation.outbound, Invocation.version]
      · simp [expectedFiller, Invocation.key, Invocation.kind, OpKind.isCRUD, groupCall]
      · intro e he
        simp [invoke, Detach_called _ _ _ _ _ y hk hy, Observe, Result.err, he]
      · intro s hs
        simp [invoke, Detach_called _ _ _ _ _ y hk hy, Observe] at hs
        exact hs.symm
      · intro r hr
        refine ⟨req, y, rfl, hy, ?_⟩
        left
        simp [groupCall] at hr
        exact hr.symm
  | ListMembers key version req =>
      have hk := keyValid_group svc (Invocation.ListMembers key version req) key rfl rfl h
      obtain ⟨y, hy⟩ := outboundOk_some w (Invocation.ListMembers key version req) req rfl ho
      simp only [Invocation.version] at hy
      cases hg : w.list
          (groupCall svc (clientFor version) svc.GetGroupResourceInfo.ListFuncName key y) with
      | error e0 =>
          refine ⟨groupCall svc (clientFor version) svc.GetGroupResourceInfo.ListFuncName key y,
            some e0, ?_, rfl, rfl, ?_, ?_, ?_, ?_⟩
          · simp [invoke, ListMembers_called _ _ _ _ _ y hk hy, listMembersTail, hg, Observe,
              convertSteps, Invocation.outbound, Invocation.version]
          · simp [expectedFiller, Invocation.key, Invocation.kind, OpKind.isCRUD, groupCall]
          · intro e he
            simp [invoke, ListMembers_called _ _ _ _ _ y hk hy, listMembersTail, hg,
              Result.err] at he ⊢
            exact he
          · intro s hs
            simp [invoke] at hs
          · intro r hr
            refine ⟨req, y, rfl, hy, ?_⟩
            left
            simp [groupCall] at hr
            exact hr.symm
      | ok g =>
          refine ⟨groupCall svc (clientFor version) svc.GetGroupResourceInfo.ListFuncName key y,
            none, ?_, rfl, rfl, ?_, ?_, ?_, ?_⟩
          · cases ht : toNameList svc.GetGroupResourceInfo.ListRespName w g <;>
              simp [invoke, ListMembers_called _ _ _ _ _ y hk hy, listMembersTail, hg, ht,
                Observe, convertSteps, Invocation.outbound, Invocation.version]
          · simp [expectedFiller, Invocation.key, Invocation.kind, OpKind.isCRUD, groupCall]
          · intro e he
            cases he
          · intro s hs
            simp [invoke] at hs
          · intro r hr
            refine ⟨req, y, rfl, hy, ?_⟩
            left
            simp [groupCall] at hr
            exact hr.symm
  | AggregateList version =>
      cases hg : w.aggregatedList (aggCall svc (clientFor version)) with
      | error e0 =>
          refine ⟨aggCall svc (clientFor version), some e0, ?_, rfl, rfl, ?_, ?_, ?_, ?_⟩
          · simp [invoke, AggregateList_eq, aggBranch, hg, Observe, convertSteps,
              Invocation.outbound, Invocation.version]
          · simp [expectedFiller, Invocation.key, aggCall]
          · intro e he
            simp [invoke, AggregateList_eq, aggBranch, hg, Result.err] at he ⊢
            exact he
          · intro s hs
            simp [invoke] at hs
          · intro r hr
            simp [aggCall] at hr
      | ok m =>
          refine ⟨aggCall svc (clientFor version), none, ?_, rfl, rfl, ?_, ?_, ?_, ?_⟩
          · simp [invoke, AggregateList_eq, aggBranch, hg, Observe, convertSteps,
              Invocation.outbound, Invocation.version]
          · simp [expectedFiller, Invocation.key, aggCall]
          · intro e he
            cases he
          · intro s hs
            simp [invoke] at hs
          · intro r hr
            simp [aggCall] at hr

/-! ## The shape of every invocation -/

theorem calls_append_call (pre : List Event) (c : Call) (o : Option Err)
    (hp : calls pre = []) : calls (pre ++ [Event.call c, Event.observe o]) = [c] := by
  induction pre with
  | nil => rfl
  | cons e rest ih =>
      cases e <;> simp_all [calls]

theorem observed_append_call (pre : List Event) (c : Call) (o : Option Err)
    (hp : observed pre = []) : observed (pre ++ [Event.call c, Event.observe o]) = [o] := by
  induction pre with
  | nil => rfl
  | cons e rest ih =>
      cases e <;> simp_all [observed]

theorem calls_convertSteps (inv : Invocation) : calls (convertSteps inv) = [] := by
  unfold convertSteps
  cases inv.outbound <;> rfl

theorem observed_convertSteps (inv : Invocation) : observed (convertSteps inv) = [] := by
  unfold convertSteps
  cases inv.outbound <;> rfl

theorem conversions_called (inv : Invocation) (c : Call) (o : Option Err) :
    ∀ cl ∈ conversions (convertSteps inv ++ [Event.call c, Event.observe o]),
      cl = clientFor inv.version := by
  unfold convertSteps
  cases inv.outbound <;> simp [conversions]

/-- Every invocation is rejected by the key validation with no step taken, or
stops after a failed outbound conversion, or issues one call whose outcome is
observed. -/
theorem invoke_shape (before : List ApiService) (svc : ApiService) (w : World)
    (inv : Invocation) :
    (keyValid svc inv = false
        ∧ (invoke (renderVars before svc) svc w inv).trace = []
        ∧ (invoke (renderVars before svc) svc w inv).value.err ≠ none)
    ∨ (keyValid svc inv = true ∧ outboundOk w inv = false
        ∧ (invoke (renderVars before svc) svc w inv).trace
            = [Event.convert (clientFor inv.version)]
        ∧ (invoke (renderVars before svc) svc w inv).value.err ≠ none)
    ∨ (keyValid svc inv = true ∧ outboundOk w inv = true
        ∧ ∃ c o, CallFacts svc w inv (invoke (renderVars before svc) svc w inv) c o) := by
  cases hk : keyValid svc inv
  · left
    obtain ⟨key, _, _, ht, he⟩ := invoke_rejected before svc w inv hk
    exact ⟨rfl, ht, by rw [he]; simp⟩
  · right
    cases ho : outboundOk w inv
    · left
      have ho2 := ho
      unfold outboundOk at ho2
      cases hx : inv.outbound with
      | none => simp [hx] at ho2
      | some x =>
          cases hy : toRevision w (clientFor inv.version) x with
          | ok y => simp [hx, hy] at ho2
          | error e =>
              obtain ⟨ht, he⟩ := invoke_convertFailed before svc w inv x e hk hx hy
              exact ⟨rfl, rfl, ht, by rw [he]; simp⟩
    · right
      exact ⟨rfl, rfl, invoke_called before svc w inv hk ho⟩


/-- C2: every emitted operation selects the client by the requested revision
with the stable client as the fallback: each call it issues goes to the client
of that revision, the request it carries is the product of the conversion
method of that same revision, and no conversion of another revision is
invoked; the alpha value selects Alpha, the beta value Beta, and any other
string (empty or unknown included) the stable client. -/
theorem revision_selects_client (before : List ApiService) (svc : ApiService) (w : World)
    (inv : Invocation) :
    (∀ c ∈ calls (invoke (renderVars before svc) svc w inv).trace,
        c.client = clientFor inv.version
        ∧ ∀ r, c.request = some r →
            ∃ x y, inv.outbound = some x ∧ toRevision w (clientFor inv.version) x = .ok y
              ∧ (r = y ∨ ∃ key, inv.key = some key ∧ r = { y with Region := key.Region }))
    ∧ (∀ cl ∈ conversions (invoke (renderVars before svc) svc w inv).trace,
        cl = clientFor inv.version)
    ∧ clientFor VersionAlpha = Client.Alpha
    ∧ clientFor VersionBeta = Client.Beta
    ∧ (∀ v : Version, v ≠ VersionAlpha → v ≠ VersionBeta → clientFor v = Client.GA) := by
  refine ⟨?_, ?_, by decide, by decide, ?_⟩
  · rcases invoke_shape before svc w inv with ⟨_, ht, _⟩ | ⟨_, _, ht, _⟩ | ⟨_, _, c, o, hf⟩
    · rw [ht]; simp [calls]
    · rw [ht]; simp [calls]
    · obtain ⟨ht, hc, _, _, _, _, hr⟩ := hf
      rw [ht, calls_append_call _ _ _ (calls_convertSteps inv)]
      intro c2 hc2
      rw [List.mem_singleton] at hc2
      subst hc2
      exact ⟨hc, hr⟩
  · rcases invoke_shape before svc w inv with ⟨_, ht, _⟩ | ⟨_, _, ht, _⟩ | ⟨_, _, c, o, hf⟩
    · rw [ht]; simp [conversions]
    · rw [ht]; simp [conversions]
    · rw [hf.1]
      exact conversions_called inv c o
  · intro v h1 h2
    simp [clientFor, h1, h2]

theorem revision_selects_client_witness :
    clientFor "v2" = Client.GA
    ∧ (⟨Client.GA, "", "NetworkEndpointGroups", "Delete", some zonalKey, none, none⟩ : Call).client
        = clientFor "v2" :=
  ⟨(revision_selects_client [] sampleNeg sampleWorld (Invocation.Delete zonalKey "v2")).2.2.2.2
      "v2" (by decide) (by decide),
   ((revision_selects_client [] sampleNeg sampleWorld (Invocation.Delete zonalKey "v2")).1
      ⟨Client.GA, "", "NetworkEndpointGroups", "Delete", some zonalKey, none, none⟩
      (by decide)).1⟩


theorem keyValid_crud_nonzonal (svc : ApiService) (inv : Invocation)
    (hc : inv.kind.isCRUD = true) (hz : svc.IsDefaultZonalService = false) :
    keyValid svc inv = true := by
  cases inv <;>
    simp_all [keyValid, Invocation.key, Invocation.kind, OpKind.isGroupKeyed, OpKind.isCRUD]

theorem keyValid_crud_zonalKey (svc : ApiService) (inv : Invocation) (key : Key)
    (hc : inv.kind.isCRUD = true) (hk : inv.key = some key) (ht : key.Typ = KeyType.Zonal) :
    keyValid svc inv = true := by
  cases inv <;>
    simp_all [keyValid, Invocation.key, Invocation.kind, OpKind.isGroupKeyed, OpKind.isCRUD]

theorem keyValid_group_iff (svc : ApiService) (inv : Invocation) (key : Key)
    (hg : inv.kind.isGroupKeyed = true) (hk : inv.key = some key) :
    keyValid svc inv = true ↔ key.Typ = KeyType.Zonal := by
  cases inv <;>
    simp_all [keyValid, Invocation.key, Invocation.kind, OpKind.isGroupKeyed]

theorem isCRUD_of_groupKeyed (k : OpKind) (hg : k.isGroupKeyed = true) : k.isCRUD = false := by
  cases k <;> simp_all [OpKind.isGroupKeyed, OpKind.isCRUD]

/-- C4: an invocation of any emitted operation issues exactly one network call
when key validation and outbound conversion succeed and none when either
fails; so no invocation issues more than one. -/
theorem one_network_call (before : List ApiService) (svc : ApiService) (w : World)
    (inv : Invocation) :
    (calls (invoke (renderVars before svc) svc w inv).trace).length
        = (if keyValid svc inv && outboundOk w inv then 1 else 0)
    ∧ (calls (invoke (renderVars before svc) svc w inv).trace).length ≤ 1 := by
  rcases invoke_shape before svc w inv with ⟨hk, ht, _⟩ | ⟨hk, ho, ht, _⟩ | ⟨hk, ho, c, o, hf⟩
  · rw [ht, hk]; simp [calls]
  · rw [ht, hk, ho]; simp [calls]
  · rw [hf.1, calls_append_call _ _ _ (calls_convertSteps inv), hk, ho]; simp

/-- C3: the five CRUD operations follow one scope rule.  Whatever the operation,
the revision and the key type, a call goes through the accessor that the rule
prescribes for the scope class of the descriptor and the type of the key: no
filler for a zonal-only resource; for a default-regional resource no filler
with a Regional key and Global otherwise; for any other resource Region with a
Regional key and no filler otherwise.  A resource that is not zonal-only
validates no key, so with any key type (Zonal included) the call is issued. -/
theorem crud_scope_rule (before : List ApiService) (svc : ApiService) (w : World)
    (inv : Invocation) (key : Key)
    (hc : inv.kind.isCRUD = true) (hk : inv.key = some key) :
    (∀ c ∈ calls (invoke (renderVars before svc) svc w inv).trace,
        c.filler = scopeFiller svc key.Typ
        ∧ c.accessor = (clientFor inv.version).accessorText ++ scopeFiller svc key.Typ
            ++ svc.GetCloudProviderName)
    ∧ (svc.IsDefaultZonalService = false → outboundOk w inv = true →
        ∃ c, calls (invoke (renderVars before svc) svc w inv).trace = [c])
    ∧ (svc.IsDefaultZonalService = true → key.Typ = KeyType.Zonal → outboundOk w inv = true →
        ∃ c, calls (invoke (renderVars before svc) svc w inv).trace = [c]) := by
  refine ⟨?_, ?_, ?_⟩
  · rcases invoke_shape before svc w inv with ⟨_, ht, _⟩ | ⟨_, _, ht, _⟩ | ⟨_, _, c, o, hf⟩
    · rw [ht]; simp [calls]
    · rw [ht]; simp [calls]
    · obtain ⟨ht, h1, h2, h3, _⟩ := hf
      rw [ht, calls_append_call _ _ _ (calls_convertSteps inv)]
      intro c2 hc2
      rw [List.mem_singleton] at hc2
      subst hc2
      have h4 : c2.filler = scopeFiller svc key.Typ := by
        rw [h3]; simp [expectedFiller, hk, hc]
      exact ⟨h4, by unfold Call.accessor; rw [h1, h2, h4]⟩
  · intro hz ho
    obtain ⟨c, o, hf⟩ := invoke_called before svc w inv (keyValid_crud_nonzonal svc inv hc hz) ho
    exact ⟨c, by rw [hf.1, calls_append_call _ _ _ (calls_convertSteps inv)]⟩
  · intro _ ht ho
    obtain ⟨c, o, hf⟩ :=
      invoke_called before svc w inv (keyValid_crud_zonalKey svc inv key hc hk ht) ho
    exact ⟨c, by rw [hf.1, calls_append_call _ _ _ (calls_convertSteps inv)]⟩

/-- C9: for any descriptor, whatever its scope flags, Attach, Detach and
ListMembers reject a key that is not Zonal with the zonal validation error and
take no step at all (no conversion of the request, no network call); with a
Zonal key every call goes through the accessor of the selected revision
without filler, and the call is issued once the request converts. -/
theorem group_ops_require_zonal_key (before : List ApiService) (svc : ApiService) (w : World)
    (inv : Invocation) (key : Key)
    (hg : inv.kind.isGroupKeyed = true) (hk : inv.key = some key) :
    (key.Typ ≠ KeyType.Zonal →
        (invoke (renderVars before svc) svc w inv).trace = []
        ∧ (invoke (renderVars before svc) svc w inv).value.err
            = some (Err.keyNotValid key svc.Name key.Name))
    ∧ (key.Typ = KeyType.Zonal →
        ∀ c ∈ calls (invoke (renderVars before svc) svc w inv).trace,
          c.filler = ""
          ∧ c.accessor = (clientFor inv.version).accessorText ++ svc.GetCloudProviderName)
    ∧ (key.Typ = KeyType.Zonal → outboundOk w inv = true →
        ∃ c, calls (invoke (renderVars before svc) svc w inv).trace = [c]) := by
  refine ⟨?_, ?_, ?_⟩
  · intro ht
    have hv : keyValid svc inv = false := by
      cases h : keyValid svc inv
      · rfl
      · exact absurd ((keyValid_group_iff svc inv key hg hk).mp h) ht
    obtain ⟨key2, hk2, _, htr, he⟩ := invoke_rejected before svc w inv hv
    rw [hk] at hk2
    cases hk2
    exact ⟨htr, he⟩
  · intro _
    rcases invoke_shape before svc w inv with ⟨_, ht, _⟩ | ⟨_, _, ht, _⟩ | ⟨_, _, c, o, hf⟩
    · rw [ht]; simp [calls]
    · rw [ht]; simp [calls]
    · obtain ⟨ht, h1, h2, h3, _⟩ := hf
      rw [ht, calls_append_call _ _ _ (calls_convertSteps inv)]
      intro c2 hc2
      rw [List.mem_singleton] at hc2
      subst hc2
      have h4 : c2.filler = "" := by
        rw [h3]; simp [expectedFiller, hk, isCRUD_of_groupKeyed _ hg]
      exact ⟨h4, by unfold Call.accessor; rw [h1, h2, h4, String.append_empty]⟩
  · intro ht ho
    obtain ⟨c, o, hf⟩ :=
      invoke_called before svc w inv ((keyValid_group_iff svc inv key hg hk).mpr ht) ho
    exact ⟨c, by rw [hf.1, calls_append_call _ _ _ (calls_convertSteps inv)]⟩


theorem crud_scope_rule_witness :
    (Invocation.Delete zonalKey "beta").kind.isCRUD = true
    ∧ (∃ c, calls (invoke (renderVars [sampleNeg] sampleForwardingRule) sampleForwardingRule
          sampleWorld (Invocation.Delete zonalKey "beta")).trace = [c])
    ∧ (⟨Client.Beta, "Global", "ForwardingRules", "Delete", some zonalKey, none, none⟩ :
          Call).accessor = "BetaGlobalForwardingRules" :=
  ⟨rfl,
   (crud_scope_rule [sampleNeg] sampleForwardingRule sampleWorld
      (Invocation.Delete zonalKey "beta") zonalKey rfl rfl).2.1 rfl rfl,
   ((crud_scope_rule [sampleNeg] sampleForwardingRule sampleWorld
      (Invocation.Delete zonalKey "beta") zonalKey rfl rfl).1
      ⟨Client.Beta, "Global", "ForwardingRules", "Delete", some zonalKey, none, none⟩
      (by decide)).2.trans (by decide)⟩

theorem group_ops_require_zonal_key_witness :
    (Invocation.Attach regionalKey "alpha" sampleComposite).kind.isGroupKeyed = true
    ∧ regionalKey.Typ ≠ KeyType.Zonal
    ∧ (invoke (renderVars [] sampleBackendService) sampleBackendService sampleWorld
        (Invocation.Attach regionalKey "alpha" sampleComposite)).trace = []
    ∧ (invoke (renderVars [] sampleBackendService) sampleBackendService sampleWorld
        (Invocation.Attach regionalKey "alpha" sampleComposite)).value.err
        = some (Err.keyNotValid regionalKey "BackendService" "rule-1")
    ∧ (∃ c, calls (invoke (renderVars [] sampleNeg) sampleNeg sampleWorld
        (Invocation.Attach zonalKey "alpha" sampleComposite)).trace = [c]) :=
  ⟨rfl, by decide,
   ((group_ops_require_zonal_key [] sampleBackendService sampleWorld
      (Invocation.Attach regionalKey "alpha" sampleComposite) regionalKey rfl rfl).1
      (by decide)).1,
   ((group_ops_require_zonal_key [] sampleBackendService sampleWorld
      (Invocation.Attach regionalKey "alpha" sampleComposite) regionalKey rfl rfl).1
      (by decide)).2,
   (group_ops_require_zonal_key [] sampleNeg sampleWorld
      (Invocation.Attach zonalKey "alpha" sampleComposite) zonalKey rfl rfl).2.2 rfl rfl⟩

/-- C7 as stated fails: Delete on a zonal-only resource with a Regional key
hands back the validation error while nothing went through the metric
observation; Create hands back the error of a failed outbound conversion
unobserved; and Get hands back the error of a failed inbound conversion while
the outcome that was observed is nil. -/
theorem validation_error_not_observed :
    ¬ outcomeObserved (invoke (renderVars [] sampleNeg) sampleNeg sampleWorld
        (Invocation.Delete regionalKey VersionGA))
    ∧ ¬ outcomeObserved (invoke (renderVars [] sampleBackendService) sampleBackendService
        failingWorld (Invocation.Create globalKey sampleComposite))
    ∧ ¬ outcomeObserved (invoke (renderVars [] sampleBackendService) sampleBackendService
        failingWorld (Invocation.Get globalKey VersionGA)) := by
  decide

/-- The outcome that goes through the observation is the outcome of the call
that was issued. -/
theorem invoke_observes (before : List ApiService) (svc : ApiService) (w : World)
    (inv : Invocation) (h : keyValid svc inv = true) (ho : outboundOk w inv = true) :
    ∃ c, (invoke (renderVars before svc) svc w inv).trace
          = convertSteps inv ++ [Event.call c, Event.observe (transportErr w inv c)]
      ∧ (∀ e, transportErr w inv c = some e →
          (invoke (renderVars before svc) svc w inv).value.err = some e)
      ∧ (∀ st, (invoke (renderVars before svc) svc w inv).value = Result.status st →
          st = transportErr w inv c) := by
  cases inv with
  | Create key obj =>
      have hk := keyValid_crud before svc (Invocation.Create key obj) key rfl rfl h
      obtain ⟨y, hy⟩ := outboundOk_some w (Invocation.Create key obj) obj rfl ho
      simp only [Invocation.version] at hy
      refine ⟨createCall (renderVars before svc) svc (clientFor obj.Version) key y, ?_, ?_, ?_⟩
      · simp [invoke, Create_called _ _ _ _ _ y hk hy, Observe, convertSteps,
          Invocation.outbound, Invocation.version, transportErr]
      · intro e he
        simp only [transportErr] at he
        simp [invoke, Create_called _ _ _ _ _ y hk hy, Observe, Result.err, he]
      · intro st hs
        simp [invoke, Create_called _ _ _ _ _ y hk hy, Observe] at hs
        simp only [transportErr]
        exact hs.symm
  | Update key obj =>
      have hk := keyValid_crud before svc (Invocation.Update key obj) key rfl rfl h
      obtain ⟨y, hy⟩ := outboundOk_some w (Invocation.Update key obj) obj rfl ho
      simp only [Invocation.version] at hy
      refine ⟨updateCall (renderVars before svc) svc (clientFor obj.Version) key y, ?_, ?_, ?_⟩
      · simp [invoke, Update_called _ _ _ _ _ y hk hy, Observe, convertSteps,
          Invocation.outbound, Invocation.version, transportErr]
      · intro e he
        simp only [transportErr] at he
        simp [invoke, Update_called _ _ _ _ _ y hk hy, Observe, Result.err, he]
      · intro st hs
        simp [invoke, Update_called _ _ _ _ _ y hk hy, Observe] at hs
        simp only [transportErr]
        exact hs.symm
  | Delete key version =>
      have hk := keyValid_crud before svc (Invocation.Delete key version) key rfl rfl h
      refine ⟨deleteCall (renderVars before svc) svc (clientFor version) key, ?_, ?_, ?_⟩
      · simp [invoke, Delete_called _ _ _ _ _ hk, Observe, convertSteps, Invocation.outbound,
          transportErr]
      · intro e he
        simp only [transportErr] at he
        simp [invoke, Delete_called _ _ _ _ _ hk, Observe, Result.err, he]
      · intro st hs
        simp [invoke, Delete_called _ _ _ _ _ hk, Observe] at hs
        simp only [transportErr]
        exact hs.symm
  | Get key version =>
      have hk := keyValid_crud before svc (Invocation.Get key version) key rfl rfl h
      refine ⟨getCall (renderVars before svc) svc (clientFor version) key, ?_, ?_, ?_⟩
      · cases hg : w.get (getCall (renderVars before svc) svc (clientFor version) key) with
        | error e0 =>
            simp [invoke, Get, hk, getSwitch_eq, hg, Observe, convertSteps,
              Invocation.outbound, transportErr]
        | ok g =>
            cases ht : toName svc.Name w g <;>
              simp [invoke, Get, hk, getSwitch_eq, hg, ht, Observe, convertSteps,
                Invocation.outbound, transportErr]
      · intro e he
        simp only [transportErr] at he
        cases hg : w.get (getCall (renderVars before svc) svc (clientFor version) key) with
        | error e0 =>
            simp only [hg, Option.some.injEq] at he
            subst he
            simp [invoke, Get, hk, getSwitch_eq, hg, Result.err]
        | ok g => simp [hg] at he
      · intro st hs
        simp [invoke] at hs
  | List key version =>
      have hk := keyValid_crud before svc (Invocation.List key version) key rfl rfl h
      refine ⟨listCall (renderVars before svc) svc (clientFor version) key, ?_, ?_, ?_⟩
      · cases hg : w.list (listCall (renderVars before svc) svc (clientFor version) key) with
        | error e0 =>
            simp [invoke, ListProvider, hk, listSwitch_eq, hg, Observe, convertSteps,
              Invocation.outbound, transportErr]
        | ok g =>
            cases ht : toNameList svc.Name w g <;>
              simp [invoke, ListProvider, hk, listSwitch_eq, hg, ht, Observe, convertSteps,
                Invocation.outbound, transportErr]
      · intro e he
        simp only [transportErr] at he
        cases hg : w.list (listCall (renderVars before svc) svc (clientFor version) key) with
        | error e0 =>
            simp only [hg, Option.some.injEq] at he
            subst he
            simp [invoke, ListProvider, hk, listSwitch_eq, hg, Result.err]
        | ok g => simp [hg] at he
      · intro st hs
        simp [invoke] at hs
  | Attach key version req =>
      have hk := keyValid_group svc (Invocation.Attach key version req) key rfl rfl h
      obtain ⟨y, hy⟩ := outboundOk_some w (Invocation.Attach key version req) req rfl ho
      simp only [Invocation.version] at hy
      refine ⟨groupCall svc (clientFor version) svc.GetGroupResourceInfo.AttachFuncName key y, ?_, ?_, ?_⟩
      · simp [invoke, Attach_called _ _ _ _ _ y hk hy, Observe, convertSteps,
          Invocation.outbound, Invocation.version, transportErr]
      · intro e he
        simp only [transportErr] at he
        simp [invoke, Attach_called _ _ _ _ _ y hk hy, Observe, Result.err, he]
      · intro st hs
        simp [invoke, Attach_called _ _ _ _ _ y hk hy, Observe] at hs
        simp only [transportErr]
        exact hs.symm
  | Detach key version req =>
      have hk := keyValid_group svc (Invocation.Detach key version req) key rfl rfl h
      obtain ⟨y, hy⟩ := outboundOk_some w (Invocation.Detach key version req) req rfl ho
      simp only [Invocation.version] at hy
      refine ⟨groupCall svc (clientFor version) svc.GetGroupResourceInfo.DetachFuncName key y, ?_, ?_, ?_⟩
      · simp [invoke, Detach_called _ _ _ _ _ y hk hy, Observe, convertSteps,
          Invocation.outbound, Invocation.version, transportErr]
      · intro e he
        simp only [transportErr] at he
        simp [invoke, Detach_called _ _ _ _ _ y hk hy, Observe, Result.err, he]
      · intro st hs
        simp [invoke, Detach_called _ _ _ _ _ y hk hy, Observe] at hs
        simp only [transportErr]
        exact hs.symm
  | ListMembers key version req =>
      have hk := keyValid_group svc (Invocation.ListMembers key version req) key rfl rfl h
      obtain ⟨y, hy⟩ := outboundOk_some w (Invocation.ListMembers key version req) req rfl ho
      simp only [Invocation.version] at hy
      refine ⟨groupCall svc (clientFor version) svc.GetGroupResourceInfo.ListFuncName key y,
        ?_, ?_, ?_⟩
      · cases hg : w.list
            (groupCall svc (clientFor version) svc.GetGroupResourceInfo.ListFuncName key y) with
        | error e0 =>
            simp [invoke, ListMembers_called _ _ _ _ _ y hk hy, listMembersTail, hg, Observe,
              convertSteps, Invocation.outbound, Invocation.version, transportErr]
        | ok g =>
            cases ht : toNameList svc.GetGroupResourceInfo.ListRespName w g <;>
              simp [invoke, ListMembers_called _ _ _ _ _ y hk hy, listMembersTail, hg, ht,
                Observe, convertSteps, Invocation.outbound, Invocation.version, transportErr]
      · intro e he
        simp only [transportErr] at he
        cases hg : w.list
            (groupCall svc (clientFor version) svc.GetGroupResourceInfo.ListFuncName key y) with
        | error e0 =>
            simp only [hg, Option.some.injEq] at he
            subst he
            simp [invoke, ListMembers_called _ _ _ _ _ y hk hy, listMembersTail, hg,
              Result.err]
        | ok g => simp [hg] at he
      · intro st hs
        simp [invoke] at hs
  | AggregateList version =>
      refine ⟨aggCall svc (clientFor version), ?_, ?_, ?_⟩
      · cases hg : w.aggregatedList (aggCall svc (clientFor version)) <;>
          simp [invoke, AggregateList_eq, aggBranch, hg, Observe, convertSteps,
            Invocation.outbound, Invocation.version, transportErr]
      · intro e he
        simp only [transportErr] at he
        cases hg : w.aggregatedList (aggCall svc (clientFor version)) with
        | error e0 =>
            simp only [hg, Option.some.injEq] at he
            subst he
            simp [invoke, AggregateList_eq, aggBranch, hg, Result.err]
        | ok m => simp [hg] at he
      · intro st hs
        simp [invoke] at hs
/-- C7 amended: when key validation and outbound conversion succeed, the
operation issues its call and passes the outcome of that very call (nil, or
the error the transport returned) through the metric observation once, right
after the call; a transport error is handed back as it was observed, and the
operations that return only an error hand back exactly the observed outcome.
A key-validation error is handed back with no observation and no call, and so
is the error of a failed outbound conversion. -/
theorem transport_outcome_observed (before : List ApiService) (svc : ApiService) (w : World)
    (inv : Invocation) :
    (keyValid svc inv = true → outboundOk w inv = true →
        ∃ c, (invoke (renderVars before svc) svc w inv).trace
            = convertSteps inv ++ [Event.call c, Event.observe (transportErr w inv c)]
          ∧ calls (invoke (renderVars before svc) svc w inv).trace = [c]
          ∧ observed (invoke (renderVars before svc) svc w inv).trace = [transportErr w inv c]
          ∧ (∀ e, transportErr w inv c = some e →
              (invoke (renderVars before svc) svc w inv).value.err = some e)
          ∧ ((invoke (renderVars before svc) svc w inv).value.err = none →
              transportErr w inv c = none)
          ∧ (∀ st, (invoke (renderVars before svc) svc w inv).value = Result.status st →
              st = transportErr w inv c))
    ∧ (keyValid svc inv = false →
        ∃ key, inv.key = some key
          ∧ (invoke (renderVars before svc) svc w inv).trace = []
          ∧ (invoke (renderVars before svc) svc w inv).value.err
              = some (Err.keyNotValid key svc.Name key.Name))
    ∧ (keyValid svc inv = true → ∀ x e, inv.outbound = some x →
        toRevision w (clientFor inv.version) x = .error e →
        (invoke (renderVars before svc) svc w inv).trace
            = [Event.convert (clientFor inv.version)]
          ∧ (invoke (renderVars before svc) svc w inv).value.err = some e)
    ∧ ((keyValid svc inv = false ∨ outboundOk w inv = false) →
        observed (invoke (renderVars before svc) svc w inv).trace = []
        ∧ calls (invoke (renderVars before svc) svc w inv).trace = []
        ∧ (invoke (renderVars before svc) svc w inv).value.err ≠ none) := by
  refine ⟨?_, ?_, ?_, ?_⟩
  · intro hk ho
    obtain ⟨c, ht, he, hs⟩ := invoke_observes before svc w inv hk ho
    refine ⟨c, ht, ?_, ?_, he, ?_, hs⟩
    · rw [ht, calls_append_call _ _ _ (calls_convertSteps inv)]
    · rw [ht, observed_append_call _ _ _ (observed_convertSteps inv)]
    · intro hn
      cases ho2 : transportErr w inv c with
      | none => rfl
      | some e => rw [he e ho2] at hn; cases hn
  · intro hk
    obtain ⟨key, hkey, _, ht, he⟩ := invoke_rejected before svc w inv hk
    exact ⟨key, hkey, ht, he⟩
  · intro hk x e hx he
    exact invoke_convertFailed before svc w inv x e hk hx he
  · intro hor
    rcases invoke_shape before svc w inv with ⟨_, ht, he⟩ | ⟨_, _, ht, he⟩ | ⟨hk, ho, _⟩
    · rw [ht]; exact ⟨rfl, rfl, he⟩
    · rw [ht]; exact ⟨rfl, rfl, he⟩
    · rcases hor with h | h
      · rw [hk] at h; cases h
      · rw [ho] at h; cases h

theorem transport_outcome_observed_witness :
    keyValid sampleBackendService (Invocation.Get regionalKey VersionBeta) = true
    ∧ outboundOk rejectingWorld (Invocation.Get regionalKey VersionBeta) = true
    ∧ (∃ c, (invoke (renderVars [] sampleBackendService) sampleBackendService rejectingWorld
            (Invocation.Get regionalKey VersionBeta)).trace
            = convertSteps (Invocation.Get regionalKey VersionBeta)
                ++ [Event.call c, Event.observe
                      (transportErr rejectingWorld (Invocation.Get regionalKey VersionBeta) c)]
          ∧ calls (invoke (renderVars [] sampleBackendService) sampleBackendService
              rejectingWorld (Invocation.Get regionalKey VersionBeta)).trace = [c]
          ∧ observed (invoke (renderVars [] sampleBackendService) sampleBackendService
              rejectingWorld (Invocation.Get regionalKey VersionBeta)).trace
              = [transportErr rejectingWorld (Invocation.Get regionalKey VersionBeta) c]
          ∧ (∀ e, transportErr rejectingWorld (Invocation.Get regionalKey VersionBeta) c
                = some e →
              (invoke (renderVars [] sampleBackendService) sampleBackendService rejectingWorld
                (Invocation.Get regionalKey VersionBeta)).value.err = some e)
          ∧ ((invoke (renderVars [] sampleBackendService) sampleBackendService rejectingWorld
                (Invocation.Get regionalKey VersionBeta)).value.err = none →
              transportErr rejectingWorld (Invocation.Get regionalKey VersionBeta) c = none)
          ∧ (∀ st, (invoke (renderVars [] sampleBackendService) sampleBackendService
                rejectingWorld (Invocation.Get regionalKey VersionBeta)).value
                = Result.status st →
              st = transportErr rejectingWorld (Invocation.Get regionalKey VersionBeta) c))
    ∧ observed (invoke (renderVars [] sampleBackendService) sampleBackendService rejectingWorld
        (Invocation.Get regionalKey VersionBeta)).trace = [some (Err.upstream "notFound")]
    ∧ (∃ key, (Invocation.Delete regionalKey VersionGA).key = some key
        ∧ (invoke (renderVars [] sampleNeg) sampleNeg sampleWorld
            (Invocation.Delete regionalKey VersionGA)).trace = []
        ∧ (invoke (renderVars [] sampleNeg) sampleNeg sampleWorld
            (Invocation.Delete regionalKey VersionGA)).value.err
            = some (Err.keyNotValid key sampleNeg.Name key.Name))
    ∧ (invoke (renderVars [] sampleBackendService) sampleBackendService failingWorld
        (Invocation.Create globalKey sampleComposite)).value.err
        = some (Err.upstream "cannot convert") :=
  ⟨by decide, by decide,
   (transport_outcome_observed [] sampleBackendService rejectingWorld
      (Invocation.Get regionalKey VersionBeta)).1 (by decide) (by decide),
   by decide,
   (transport_outcome_observed [] sampleNeg sampleWorld
      (Invocation.Delete regionalKey VersionGA)).2.1 (by decide),
   ((transport_outcome_observed [] sampleBackendService failingWorld
      (Invocation.Create globalKey sampleComposite)).2.2.1 (by decide) sampleComposite
      (Err.upstream "cannot convert") rfl rfl).2⟩

theorem zonalOnly_rejects_nonzonal_key_witness :
    sampleNeg.IsDefaultZonalService = true
    ∧ globalKey.Typ ≠ KeyType.Zonal
    ∧ Get (renderVars [sampleBackendService] sampleNeg) sampleNeg sampleWorld globalKey
        VersionBeta
        = { value := .error (Err.keyNotValid globalKey "NetworkEndpointGroup" "bs-1"),
            trace := [] } :=
  ⟨rfl, by decide,
   (zonalOnly_rejects_nonzonal_key [sampleBackendService] sampleNeg sampleWorld globalKey rfl
      (by decide)).2.2.2.1 VersionBeta⟩

/-! ## Get and List -/

theorem toName_ok (name : String) (w : World) (g : GceObj) (x : Composite)
    (h : toName name w g = .ok x) : x.Version = "" ∧ x.Scope = KeyType.unset := by
  unfold toName copyViaJSON at h
  cases hd : w.jsonDecode g with
  | error e => simp [hd] at h
  | ok p =>
      simp [hd] at h
      subst h
      exact ⟨rfl, rfl⟩

theorem toNameList_ok (name : String) (w : World) (gs : List GceObj) (xs : List Composite)
    (h : toNameList name w gs = .ok xs) :
    ∀ x ∈ xs, x.Version = "" ∧ x.Scope = KeyType.unset := by
  unfold toNameList copyViaJSONList at h
  cases hd : w.jsonDecodeList gs with
  | error e => simp [hd] at h
  | ok ps =>
      simp [hd] at h
      subst h
      intro x hx
      simp at hx
      obtain ⟨p, _, rfl⟩ := hx
      exact ⟨rfl, rfl⟩

/-- A successful Get is the decoded object with the scope stamp and the
requested revision. -/
theorem Get_ok (tv : TemplateVars) (svc : ApiService) (w : World) (key : Key)
    (version : Version) (obj : Composite)
    (h : (Get tv svc w key version).value = .ok obj) :
    ∃ g x, w.get (getSwitch tv svc key version) = .ok g ∧ toName svc.Name w g = .ok x
      ∧ obj = { getStamp tv svc key x with Version := version } := by
  unfold Get at h
  cases hk : crudKeyCheck tv svc key with
  | some e => simp [hk] at h
  | none =>
      cases hg : w.get (getSwitch tv svc key version) with
      | error e => simp [hk, hg] at h
      | ok g =>
          cases hx : toName svc.Name w g with
          | error e => simp [hk, hg, hx] at h
          | ok x =>
              simp [hk, hg, hx] at h
              exact ⟨g, x, rfl, hx, h.symm⟩

/-- C5: a successful Get returns an object whose Version is the requested
revision and whose Scope is Zonal for a zonal-only resource; for a
default-regional resource it is Regional when the key is Regional and stays
at the zero value for every other key type. -/
theorem get_stamps_scope_and_version (before : List ApiService) (svc : ApiService)
    (w : World) (key : Key) (version : Version) (obj : Composite)
    (h : (Get (renderVars before svc) svc w key version).value = .ok obj) :
    obj.Version = version
    ∧ (svc.IsDefaultZonalService = true → obj.Scope = KeyType.Zonal)
    ∧ (svc.IsDefaultZonalService = false → svc.IsDefaultRegionalService = true →
        key.Typ = KeyType.Regional → obj.Scope = KeyType.Regional)
    ∧ (svc.IsDefaultZonalService = false → svc.IsDefaultRegionalService = true →
        key.Typ ≠ KeyType.Regional → obj.Scope = KeyType.unset) := by
  obtain ⟨g, x, _, hx, rfl⟩ := Get_ok _ _ _ _ _ _ h
  obtain ⟨_, hs⟩ := toName_ok _ _ _ _ hx
  refine ⟨rfl, ?_, ?_, ?_⟩
  · intro hz
    simp [getStamp, renderVars_onlyZonal, hz]
  · intro hz hr ht
    simp [getStamp, renderVars_onlyZonal, hz, hr, ht]
  · intro hz hr ht
    simp [getStamp, renderVars_onlyZonal, hz, hr, ht, hs]

theorem get_stamps_scope_and_version_witness :
    (Get (renderVars [sampleNeg] sampleForwardingRule) sampleForwardingRule sampleWorld
        regionalKey VersionBeta).value
      = .ok { Version := "beta", Scope := KeyType.Regional, Name := "neg-1", Region := "",
              SelfLink := "zones/us-central1-a/networkEndpointGroups/neg-1" }
    ∧ (({ Version := "beta", Scope := KeyType.Regional, Name := "neg-1", Region := "",
          SelfLink := "zones/us-central1-a/networkEndpointGroups/neg-1" } : Composite).Version
        = VersionBeta) :=
  ⟨rfl,
   (get_stamps_scope_and_version [sampleNeg] sampleForwardingRule sampleWorld regionalKey
      VersionBeta _ rfl).1⟩

/-- A successful List is the decoded list with the requested revision stamped
on every element and nothing else changed. -/
theorem ListProvider_ok (tv : TemplateVars) (svc : ApiService) (w : World) (key : Key)
    (version : Version) (objs : List Composite)
    (h : (ListProvider tv svc w key version).value = .ok objs) :
    ∃ gs xs, w.list (listSwitch tv svc key version) = .ok gs
      ∧ toNameList svc.Name w gs = .ok xs
      ∧ objs = xs.map (fun obj => { obj with Version := version }) := by
  unfold ListProvider at h
  cases hk : crudKeyCheck tv svc key with
  | some e => simp [hk] at h
  | none =>
      cases hg : w.list (listSwitch tv svc key version) with
      | error e => simp [hk, hg] at h
      | ok gs =>
          cases hx : toNameList svc.Name w gs with
          | error e => simp [hk, hg, hx] at h
          | ok xs =>
              simp [hk, hg, hx] at h
              exact ⟨gs, xs, rfl, hx, h.symm⟩

/-- What List does: every object of a successful List carries the requested
revision, and its Scope is at the zero value for every descriptor and key. -/
theorem list_stamps_version_only (before : List ApiService) (svc : ApiService)
    (w : World) (key : Key) (version : Version) (objs : List Composite)
    (h : (ListProvider (renderVars before svc) svc w key version).value = .ok objs) :
    ∀ o ∈ objs, o.Version = version ∧ o.Scope = KeyType.unset := by
  obtain ⟨gs, xs, _, hx, rfl⟩ := ListProvider_ok _ _ _ _ _ _ h
  intro o ho
  simp at ho
  obtain ⟨x, hxm, rfl⟩ := ho
  exact ⟨rfl, (toNameList_ok _ _ _ _ hx x hxm).2⟩

/-- C6 at a failing input: for the zonal-only resource and a Zonal key, Get
hands back the object with Scope Zonal while List hands back the same object
with the revision stamped and Scope at the zero value. -/
theorem list_does_not_stamp_scope :
    (Get (renderVars [] sampleNeg) sampleNeg sampleWorld zonalKey VersionGA).value
      = .ok { Version := "ga", Scope := KeyType.Zonal, Name := "neg-1", Region := "",
              SelfLink := "zones/us-central1-a/networkEndpointGroups/neg-1" }
    ∧ (ListProvider (renderVars [] sampleNeg) sampleNeg sampleWorld zonalKey VersionGA).value
      = .ok [{ Version := "ga", Scope := KeyType.unset, Name := "neg-1", Region := "",
               SelfLink := "zones/us-central1-a/networkEndpointGroups/neg-1" }] :=
  ⟨rfl, rfl⟩


/-! ## The aggregated list -/

theorem aggEntry_eq (w : World) (version : Version) (obj : Composite) :
    aggEntry w version obj
      = (parsedKey w obj.SelfLink).map (fun k => (k, { obj with Version := version })) := by
  unfold aggEntry parsedKey
  split
  · next resourceID h =>
      cases hk : resourceID.Key <;> simp [hk]
  · rfl

theorem filterMap_aggEntry_snd (w : World) (version : Version) (objs : List Composite) :
    (objs.filterMap (aggEntry w version)).map Prod.snd
      = (objs.filter (fun o => (parsedKey w o.SelfLink).isSome)).map
          (fun o => { o with Version := version }) := by
  induction objs with
  | nil => rfl
  | cons o rest ih =>
      rw [List.filterMap_cons, aggEntry_eq]
      cases hp : parsedKey w o.SelfLink with
      | none => simp [hp, ih, List.filter_cons]
      | some k => simp [hp, ih, List.filter_cons]

theorem filterMap_aggEntry_mem (w : World) (version : Version) (objs : List Composite) :
    ∀ e ∈ objs.filterMap (aggEntry w version),
      parsedKey w e.2.SelfLink = some e.1 ∧ e.2.Version = version := by
  intro e he
  rw [List.mem_filterMap] at he
  obtain ⟨o, _, ho⟩ := he
  rw [aggEntry_eq] at ho
  cases hp : parsedKey w o.SelfLink with
  | none => simp [hp] at ho
  | some k =>
      simp [hp] at ho
      subst ho
      exact ⟨hp, rfl⟩

/-- C8: for every revision, when the aggregated-list call succeeds and its
elements convert, AggregateList returns a nil error and a map with one entry
per element whose SelfLink parses to a resource id with a key: the values are
exactly those elements, in order, each stamped with the requested revision and
filed under its parsed key; the elements that do not parse are left out and
raise no error. -/
theorem aggregateList_skips_unparsable (svc : ApiService) (w : World) (version : Version)
    (m : List (String × List GceObj)) (objs : List Composite)
    (hm : w.aggregatedList (aggCall svc (clientFor version)) = .ok m)
    (hc : toNameList svc.GetGroupResourceInfo.AggListRespName w (flattenMap m) = .ok objs) :
    ∃ entries, (AggregateList svc w version).value = .ok entries
      ∧ entries.map Prod.snd
          = (objs.filter (fun o => (parsedKey w o.SelfLink).isSome)).map
              (fun o => { o with Version := version })
      ∧ (∀ e ∈ entries, parsedKey w e.2.SelfLink = some e.1 ∧ e.2.Version = version) := by
  refine ⟨objs.filterMap (aggEntry w version), ?_, filterMap_aggEntry_snd w version objs,
    filterMap_aggEntry_mem w version objs⟩
  rw [AggregateList_eq]
  unfold aggBranch
  rw [hm]
  simp only
  unfold aggTail
  rw [hc]

theorem aggregateList_skips_unparsable_witness :
    sampleWorld.aggregatedList (aggCall sampleNeg (clientFor "v9"))
      = .ok [("zones/us-central1-a", [sampleObj, sampleBadObj])]
    ∧ parsedKey sampleWorld sampleBadObj.SelfLink = none
    ∧ (∃ entries, (AggregateList sampleNeg sampleWorld "v9").value = .ok entries
        ∧ entries.map Prod.snd
            = ([({ Version := "", Scope := KeyType.unset, Name := "neg-1", Region := "",
                   SelfLink := "zones/us-central1-a/networkEndpointGroups/neg-1" } : Composite),
                { Version := "", Scope := KeyType.unset, Name := "neg-2", Region := "",
                  SelfLink := "bad" }].filter
                  (fun o => (parsedKey sampleWorld o.SelfLink).isSome)).map
                (fun o => { o with Version := "v9" })
        ∧ (∀ e ∈ entries, parsedKey sampleWorld e.2.SelfLink = some e.1
            ∧ e.2.Version = "v9")) :=
  ⟨rfl, rfl,
   aggregateList_skips_unparsable sampleNeg sampleWorld "v9"
     [("zones/us-central1-a", [sampleObj, sampleBadObj])] _ rfl rfl⟩

/-! ## Which blocks are rendered -/

theorem emitOp_kind (tv : TemplateVars) (svc : ApiService) (k : OpKind) :
    (emitOp tv svc k).kind = FuncKind.op k := rfl

theorem emitOp_svc (tv : TemplateVars) (svc : ApiService) (k : OpKind) :
    (emitOp tv svc k).svc = svc := rfl

theorem emitOps_svc (tv : TemplateVars) (svc : ApiService) :
    ∀ f ∈ emitOps tv svc, f.svc = svc := by
  intro f hf
  unfold emitOps at hf
  split_ifs at hf <;> simp at hf
  all_goals
    casesm* _ ∨ _
  all_goals subst_vars
  all_goals rfl

theorem emitConversions_svc (tv : TemplateVars) (svc : ApiService)
    (versions : List (String × String)) :
    ∀ f ∈ emitConversions tv svc versions, f.svc = svc := by
  intro f hf
  unfold emitConversions at hf
  simp at hf
  casesm* _ ∨ _, ∃ _, _, _ ∧ _
  all_goals subst_vars
  all_goals rfl

theorem emitConversions_kind (tv : TemplateVars) (svc : ApiService)
    (versions : List (String × String)) (k : OpKind) :
    ∀ f ∈ emitConversions tv svc versions, f.kind ≠ FuncKind.op k := by
  intro f hf
  unfold emitConversions at hf
  simp at hf
  casesm* _ ∨ _, ∃ _, _, _ ∧ _
  all_goals subst_vars
  all_goals simp

theorem emitOps_op (tv : TemplateVars) (svc : ApiService) (k : OpKind) :
    (∃ f ∈ emitOps tv svc, f.kind = FuncKind.op k)
      ↔ (svc.HasCRUD = true
          ∧ (k = OpKind.Update → svc.HasUpdate = true)
          ∧ (k.isCRUD = false → svc.IsGroupResourceService = true)) := by
  unfold emitOps
  cases h2 : svc.HasCRUD <;> cases h3 : svc.HasUpdate <;>
    cases h4 : svc.IsGroupResourceService <;>
    simp only [List.mem_append, List.mem_cons, List.mem_singleton,
      List.not_mem_nil, exists_eq_or_imp, exists_eq_left, emitOp_kind,
      if_true, if_false, ite_true, ite_false, List.append_nil, List.nil_append,
      List.cons_append, List.singleton_append, Bool.false_eq_true, or_false, false_or,
      false_and, exists_false, FuncKind.op.injEq, and_false, reduceCtorEq] <;>
    cases k <;> simp [OpKind.isCRUD]


theorem emitFor_svc (tv : TemplateVars) (svc : ApiService) (versions : List (String × String)) :
    ∀ f ∈ emitFor tv svc versions, f.svc = svc := by
  intro f hf
  unfold emitFor at hf
  split_ifs at hf
  · rw [List.mem_append] at hf
    rcases hf with hf | hf
    · exact emitOps_svc tv svc f hf
    · exact emitConversions_svc tv svc versions f hf
  · cases hf

theorem emitFor_op (tv : TemplateVars) (svc : ApiService) (versions : List (String × String))
    (k : OpKind) :
    (∃ f ∈ emitFor tv svc versions, f.kind = FuncKind.op k) ↔ emitCondition svc k = true := by
  have hops := emitOps_op tv svc k
  unfold emitFor
  cases h1 : svc.IsMainService
  · cases k <;> simp [emitCondition, h1]
  · simp only [if_true, List.mem_append]
    constructor
    · rintro ⟨f, hf | hf, hk⟩
      · have h := hops.mp ⟨f, hf, hk⟩
        cases k <;> simp_all [emitCondition, OpKind.isCRUD]
      · exact absurd hk (emitConversions_kind tv svc versions k f hf)
    · intro hc
      have h : svc.HasCRUD = true ∧ (k = OpKind.Update → svc.HasUpdate = true)
          ∧ (k.isCRUD = false → svc.IsGroupResourceService = true) := by
        cases k <;> simp_all [emitCondition, OpKind.isCRUD]
      obtain ⟨f, hf, hk⟩ := hops.mpr h
      exact ⟨f, Or.inl hf, hk⟩

/-- The blocks rendered for the catalog are those rendered for its
descriptors, each with some value of the template variables. -/
theorem mem_genFuncsFrom (versions : List (String × String)) (all : List ApiService) :
    ∀ (tv : TemplateVars) (f : EmittedFunc), f ∈ genFuncsFrom versions tv all →
      ∃ svc ∈ all, ∃ tv2, f ∈ emitFor tv2 svc versions := by
  induction all with
  | nil => intro tv f hf; cases hf
  | cons svc rest ih =>
      intro tv f hf
      unfold genFuncsFrom at hf
      rw [List.mem_append] at hf
      rcases hf with hf | hf
      · exact ⟨svc, List.mem_cons_self _ _, _, hf⟩
      · obtain ⟨svc2, hm, tv2, h2⟩ := ih _ f hf
        exact ⟨svc2, List.mem_cons_of_mem _ hm, tv2, h2⟩

theorem genFuncsFrom_covers (versions : List (String × String)) (all : List ApiService)
    (svc : ApiService) (hs : svc ∈ all) :
    ∀ tv : TemplateVars, ∃ tv2, ∀ f ∈ emitFor tv2 svc versions,
      f ∈ genFuncsFrom versions tv all := by
  induction all with
  | nil => cases hs
  | cons svc0 rest ih =>
      intro tv
      rcases List.mem_cons.mp hs with h | h
      · subst h
        refine ⟨assignVars tv svc, fun f hf => ?_⟩
        unfold genFuncsFrom
        exact List.mem_append_left _ hf
      · obtain ⟨tv2, h2⟩ := ih h (assignVars tv svc0)
        refine ⟨tv2, fun f hf => ?_⟩
        unfold genFuncsFrom
        exact List.mem_append_right _ (h2 f hf)

/-- The blocks of a descriptor inside the output of genFuncs: they are
rendered with the values that the template variables have after the
descriptors before it. -/
theorem genFuncsFrom_split (versions : List (String × String)) (before : List ApiService)
    (svc : ApiService) (after : List ApiService) :
    ∀ tv : TemplateVars,
      genFuncsFrom versions tv (before ++ svc :: after)
        = genFuncsFrom versions tv before
            ++ emitFor (assignVars (before.foldl assignVars tv) svc) svc versions
            ++ genFuncsFrom versions (assignVars (before.foldl assignVars tv) svc) after := by
  induction before with
  | nil => intro tv; simp [genFuncsFrom]
  | cons b rest ih =>
      intro tv
      simp [genFuncsFrom, ih (assignVars tv b), List.append_assoc]

theorem genFuncs_split (versions : List (String × String)) (before : List ApiService)
    (svc : ApiService) (after : List ApiService) :
    genFuncs (before ++ svc :: after) versions
      = genFuncs before versions ++ emitFor (renderVars before svc) svc versions
          ++ genFuncsFrom versions (renderVars before svc) after :=
  genFuncsFrom_split versions before svc after TemplateVars.initial

/-- C10: for a descriptor of the catalog, genFuncs renders Create, Delete, Get
and List exactly when it is a main service with HasCRUD, Update exactly when
HasUpdate holds as well, and Attach, Detach, ListMembers and AggregateList
exactly when IsGroupResourceService holds as well; so none of the operations
is rendered for a descriptor that is not a main service or has no CRUD. -/
theorem operations_emitted_iff (all : List ApiService) (versions : List (String × String))
    (svc : ApiService) (k : OpKind) (hs : svc ∈ all) :
    (∃ f ∈ genFuncs all versions, f.svc = svc ∧ f.kind = FuncKind.op k)
      ↔ emitCondition svc k = true := by
  constructor
  · rintro ⟨f, hf, hsvc, hk⟩
    obtain ⟨svc2, _, tv2, h2⟩ := mem_genFuncsFrom versions all _ f hf
    have h3 := emitFor_svc tv2 svc2 versions f h2
    rw [hsvc] at h3
    subst h3
    exact (emitFor_op tv2 svc versions k).mp ⟨f, h2, hk⟩
  · intro hc
    obtain ⟨tv2, h2⟩ := genFuncsFrom_covers versions all svc hs TemplateVars.initial
    obtain ⟨f, hf, hk⟩ := (emitFor_op tv2 svc versions k).mpr hc
    exact ⟨f, h2 f hf, emitFor_svc tv2 svc versions f hf, hk⟩

theorem operations_emitted_iff_witness :
    sampleBackendService ∈ sampleCatalog
    ∧ emitCondition sampleBackendService OpKind.Update = true
    ∧ emitCondition sampleBackendService OpKind.Attach = false
    ∧ ((∃ f ∈ genFuncs sampleCatalog sampleVersions,
          f.svc = sampleBackendService ∧ f.kind = FuncKind.op OpKind.Update)
        ↔ emitCondition sampleBackendService OpKind.Update = true)
    ∧ ¬ (∃ f ∈ genFuncs sampleCatalog sampleVersions,
          f.svc = sampleBackendService ∧ f.kind = FuncKind.op OpKind.Attach) :=
  ⟨by decide, rfl, rfl,
   operations_emitted_iff sampleCatalog sampleVersions sampleBackendService OpKind.Update
     (by decide),
   fun h => Bool.false_ne_true
     ((operations_emitted_iff sampleCatalog sampleVersions sampleBackendService OpKind.Attach
       (by decide)).mp h)⟩

/-! ## The emitted composite types -/

/-- C11: the members of the emitted composite type are, in this order, Version
and Scope (exactly when the descriptor is a main service), one member per
descriptor field in the order of the descriptor with the name and Go type of
the field, the embedded server response (exactly when the descriptor is a
main service with HasCRUD), then ForceSendFields and NullFields; and every
member that does not come from a descriptor field carries the json tag "-". -/
theorem composite_type_members (svc : ApiService) :
    ∃ book fields envelope,
      (genType svc).Members = book ++ fields ++ envelope ++ sendHintMembers
      ∧ book.map Member.Name = (if svc.IsMainService then ["Version", "Scope"] else [])
      ∧ fields.map Member.Name = svc.Fields.map Field.Name
      ∧ fields.map Member.GoType = svc.Fields.map Field.GoType
      ∧ envelope.map Member.Name
          = (if svc.IsMainService && svc.HasCRUD then ["ServerResponse"] else [])
      ∧ sendHintMembers.map Member.Name = ["ForceSendFields", "NullFields"]
      ∧ (∀ m ∈ book ++ envelope ++ sendHintMembers, m.JsonTag = "-") := by
  refine ⟨bookkeepingMembers svc, svc.Fields.map fieldMember, envelopeMembers svc, rfl,
    ?_, ?_, ?_, ?_, rfl, ?_⟩
  · unfold bookkeepingMembers
    split_ifs <;> rfl
  · rw [List.map_map]
    apply List.map_congr_left
    intro f _
    simp only [Function.comp, fieldMember]
    split_ifs <;> rfl
  · rw [List.map_map]
    apply List.map_congr_left
    intro f _
    simp only [Function.comp, fieldMember]
    split_ifs <;> rfl
  · unfold envelopeMembers
    split_ifs <;> rfl
  · intro m hm
    unfold bookkeepingMembers envelopeMembers sendHintMembers at hm
    split_ifs at hm <;> simp at hm
    all_goals
      casesm* _ ∨ _
    all_goals subst_vars
    all_goals rfl

theorem composite_type_members_witness :
    (genType sampleUrlMap).Members.map Member.Name
        = ["Version", "Scope", "Id", "Name", "ServerResponse", "ForceSendFields", "NullFields"]
    ∧ (genType sampleBackend).Members.map Member.Name = ["ForceSendFields", "NullFields"]
    ∧ (∃ book fields envelope,
        (genType sampleUrlMap).Members = book ++ fields ++ envelope ++ sendHintMembers
        ∧ book.map Member.Name
            = (if sampleUrlMap.IsMainService then ["Version", "Scope"] else [])
        ∧ fields.map Member.Name = sampleUrlMap.Fields.map Field.Name
        ∧ fields.map Member.GoType = sampleUrlMap.Fields.map Field.GoType
        ∧ envelope.map Member.Name
            = (if sampleUrlMap.IsMainService && sampleUrlMap.HasCRUD then ["ServerResponse"]
               else [])
        ∧ sendHintMembers.map Member.Name = ["ForceSendFields", "NullFields"]
        ∧ (∀ m ∈ book ++ envelope ++ sendHintMembers, m.JsonTag = "-")) :=
  ⟨by decide, by decide, composite_type_members sampleUrlMap⟩

/-! ## The conversion blocks -/

theorem emitFor_nonMain (tv : TemplateVars) (svc : ApiService)
    (versions : List (String × String)) (h : svc.IsMainService = false) :
    emitFor tv svc versions = [] := by
  unfold emitFor
  simp [h]

theorem emitFor_main_conversions (tv : TemplateVars) (svc : ApiService)
    (versions : List (String × String)) (h : svc.IsMainService = true) :
    ∀ f ∈ emitConversions tv svc versions, f ∈ emitFor tv svc versions := by
  intro f hf
  unfold emitFor
  rw [if_pos h]
  exact List.mem_append_right _ hf

/-- C12 as stated fails: the catalog holds the descriptor Backend, which is not
a main service, and no block at all is rendered for it, so it has neither the
untyped conversion nor a conversion to any revision. -/
theorem no_conversion_for_non_main :
    sampleBackend ∈ sampleCatalog
    ∧ ¬ (∃ f ∈ genFuncs sampleCatalog sampleVersions,
          f.svc = sampleBackend ∧ f.kind = FuncKind.toComposite)
    ∧ ¬ (∃ f ∈ genFuncs sampleCatalog sampleVersions,
          f.svc = sampleBackend ∧ f.kind = FuncKind.toVersion "Alpha" "alpha") := by
  refine ⟨by decide, ?_, ?_⟩
  · rintro ⟨f, hf, hs, _⟩
    obtain ⟨svc2, _, tv2, h2⟩ := mem_genFuncsFrom sampleVersions sampleCatalog _ f hf
    have h3 := emitFor_svc tv2 svc2 sampleVersions f h2
    rw [hs] at h3
    subst h3
    rw [emitFor_nonMain tv2 sampleBackend sampleVersions rfl] at h2
    cases h2
  · rintro ⟨f, hf, hs, _⟩
    obtain ⟨svc2, _, tv2, h2⟩ := mem_genFuncsFrom sampleVersions sampleCatalog _ f hf
    have h3 := emitFor_svc tv2 svc2 sampleVersions f h2
    rw [hs] at h3
    subst h3
    rw [emitFor_nonMain tv2 sampleBackend sampleVersions rfl] at h2
    cases h2

/-- C12 amended: for every descriptor of the catalog that is a main service,
with or without CRUD, genFuncs renders the untyped conversions toNAME and
toNAMEList and, for every entry of the revision table, the conversion
ToVERSION to that revision and the conversion VERSIONToNAME from it; for a
descriptor that is not a main service it renders no block at all. -/
theorem conversions_emitted_for_main (all : List ApiService)
    (versions : List (String × String)) (svc : ApiService) (hs : svc ∈ all) :
    (svc.IsMainService = true →
        (∃ f ∈ genFuncs all versions,
            f.svc = svc ∧ f.kind = FuncKind.toList ∧ f.name = "to" ++ svc.Name ++ "List")
        ∧ (∃ f ∈ genFuncs all versions,
            f.svc = svc ∧ f.kind = FuncKind.toComposite ∧ f.name = "to" ++ svc.Name)
        ∧ (∀ ve ∈ versions,
            (∃ f ∈ genFuncs all versions,
                f.svc = svc ∧ f.kind = FuncKind.toVersion ve.1 ve.2 ∧ f.name = "To" ++ ve.1)
            ∧ (∃ f ∈ genFuncs all versions,
                f.svc = svc ∧ f.kind = FuncKind.versionTo ve.1 ve.2
                  ∧ f.name = ve.1 ++ "To" ++ svc.Name)))
    ∧ (svc.IsMainService = false → ∀ f ∈ genFuncs all versions, f.svc ≠ svc) := by
  constructor
  · intro hm
    obtain ⟨tv2, h2⟩ := genFuncsFrom_covers versions all svc hs TemplateVars.initial
    have hin : ∀ f ∈ emitConversions tv2 svc versions, f ∈ genFuncs all versions :=
      fun f hf => h2 f (emitFor_main_conversions tv2 svc versions hm f hf)
    refine ⟨⟨{ kind := FuncKind.toList, name := "to" ++ svc.Name ++ "List", svc := svc,
                vars := tv2 }, hin _ ?_, rfl, rfl, rfl⟩,
      ⟨{ kind := FuncKind.toComposite, name := "to" ++ svc.Name, svc := svc, vars := tv2 },
        hin _ ?_, rfl, rfl, rfl⟩, ?_⟩
    · unfold emitConversions
      simp
    · unfold emitConversions
      simp
    · intro ve hve
      refine ⟨⟨{ kind := FuncKind.toVersion ve.1 ve.2, name := "To" ++ ve.1, svc := svc,
                  vars := tv2 }, hin _ ?_, rfl, rfl, rfl⟩,
        ⟨{ kind := FuncKind.versionTo ve.1 ve.2, name := ve.1 ++ "To" ++ svc.Name, svc := svc,
            vars := tv2 }, hin _ ?_, rfl, rfl, rfl⟩⟩
      · unfold emitConversions
        simp only [List.mem_append, List.mem_map]
        exact Or.inr ⟨ve, hve, rfl⟩
      · unfold emitConversions
        simp only [List.mem_append, List.mem_map]
        exact Or.inl (Or.inr ⟨ve, hve, rfl⟩)
  · intro hm f hf hsvc
    obtain ⟨svc2, _, tv2, h2⟩ := mem_genFuncsFrom versions all _ f hf
    have h3 := emitFor_svc tv2 svc2 versions f h2
    rw [hsvc] at h3
    subst h3
    rw [emitFor_nonMain tv2 svc versions hm] at h2
    cases h2

theorem conversions_emitted_for_main_witness :
    sampleNeg ∈ sampleCatalog
    ∧ sampleNeg.IsMainService = true
    ∧ (∃ f ∈ genFuncs sampleCatalog sampleVersions,
        f.svc = sampleNeg ∧ f.kind = FuncKind.toVersion "GA" "" ∧ f.name = "To" ++ "GA")
    ∧ (∃ f ∈ genFuncs sampleCatalog sampleVersions,
        f.svc = sampleNeg ∧ f.kind = FuncKind.versionTo "Beta" "beta"
          ∧ f.name = "Beta" ++ "To" ++ sampleNeg.Name) :=
  ⟨by decide, rfl,
   (((conversions_emitted_for_main sampleCatalog sampleVersions sampleNeg (by decide)).1
      rfl).2.2 ("GA", "") (by decide)).1,
   (((conversions_emitted_for_main sampleCatalog sampleVersions sampleNeg (by decide)).1
      rfl).2.2 ("Beta", "beta") (by decide)).2⟩

/-! ## The entry point -/

/-- C13 as stated fails: when the formatter rejects the test buffer, the run
aborts after the wrapper file has been written, so it ends with exactly one of
the two files written. -/
theorem format_failure_after_first_write :
    (main testFormatFails).panic = some "exit status 2"
    ∧ (main testFormatFails).written = [wrapperPath]
    ∧ ¬ allOrNothing (main testFormatFails) := by
  decide

/-- C13 amended: when a template rendering fails or the formatter fails on the
wrapper buffer, the run aborts with no output file written; the test buffer is
formatted only after the wrapper file has been written, so when the formatter
fails on the test buffer the run aborts with the wrapper file written and the
test file not; and a run that does not abort has written both files. -/
theorem abort_before_first_write (g : GenWorld) :
    (renderingOk g = false → (main g).written = [] ∧ (main g).panic ≠ none)
    ∧ (∀ header types funcs p, g.genHeader = .ok header → g.genTypes = .ok types →
        g.genFuncs = .ok funcs → g.gofmt (header ++ types ++ funcs) = .error p →
        (main g).written = [] ∧ (main g).panic ≠ none)
    ∧ (∀ header types funcs testHeader tests formatted p,
        g.genHeader = .ok header → g.genTypes = .ok types → g.genFuncs = .ok funcs →
        g.genTestHeader = .ok testHeader → g.genTests = .ok tests →
        g.gofmt (header ++ types ++ funcs) = .ok formatted →
        g.writeFile wrapperPath formatted = none →
        g.gofmt (testHeader ++ tests) = .error p →
        (main g).written = [wrapperPath] ∧ (main g).panic = some p)
    ∧ ((main g).panic = none → (main g).written = [wrapperPath, testPath]) := by
  refine ⟨?_, ?_, ?_, ?_⟩
  · intro h
    unfold renderingOk at h
    unfold main
    cases h1 : g.genHeader with
    | error e => exact ⟨rfl, by simp⟩
    | ok header =>
    cases h2 : g.genTypes with
    | error e => exact ⟨rfl, by simp⟩
    | ok types =>
    cases h3 : g.genFuncs with
    | error e => exact ⟨rfl, by simp⟩
    | ok funcs =>
    cases h4 : g.genTestHeader with
    | error e => exact ⟨rfl, by simp⟩
    | ok testHeader =>
    cases h5 : g.genTests with
    | error e => exact ⟨rfl, by simp⟩
    | ok tests => simp [h1, h2, h3, h4, h5] at h
  · intro header types funcs p h1 h2 h3 hf
    unfold main
    rw [h1, h2, h3]
    cases h4 : g.genTestHeader with
    | error e => exact ⟨rfl, by simp⟩
    | ok th =>
        cases h5 : g.genTests with
        | error e => exact ⟨rfl, by simp⟩
        | ok ts => simp [gofmtContent, hf]
  · intro header types funcs testHeader tests formatted p h1 h2 h3 h4 h5 hf hw hf2
    unfold main
    rw [h1, h2, h3, h4, h5]
    simp [gofmtContent, hf, hw, hf2]
  · intro h
    unfold main at h ⊢
    repeat' split at h
    all_goals first
      | (simp at h; done)
      | simp_all

theorem abort_before_first_write_witness :
    renderingOk renderFails = false
    ∧ (main renderFails).written = []
    ∧ (main wrapperFormatFails).written = []
    ∧ (main testFormatFails).written = [wrapperPath]
    ∧ (main sampleGenWorld).panic = none
    ∧ (main sampleGenWorld).written = [wrapperPath, testPath] :=
  ⟨by decide,
   ((abort_before_first_write renderFails).1 (by decide)).1,
   ((abort_before_first_write wrapperFormatFails).2.1 "header" "types" "funcs" "exit status 2"
      rfl rfl rfl rfl).1,
   ((abort_before_first_write testFormatFails).2.2.1 "header" "types" "funcs" "testHeader"
      "tests" "headertypesfuncs" "exit status 2" rfl rfl rfl rfl rfl rfl rfl rfl).1,
   by decide,
   (abort_before_first_write sampleGenWorld).2.2.2 (by decide)⟩

/-! ## The emitted structural test -/

theorem FieldByName_own (t : StructType) (name : String)
    (h : name ∈ t.Fields.map StructField.Name) :
    ∃ a ∈ t.Fields, a.Name = name ∧ FieldByName t name = some a := by
  unfold FieldByName
  cases hf : t.Fields.find? (fun f => f.Name = name) with
  | some a =>
      have hp := List.find?_some hf
      exact ⟨a, List.mem_of_find?_eq_some hf, by simpa using hp, rfl⟩
  | none =>
      rw [List.find?_eq_none] at hf
      rw [List.mem_map] at h
      obtain ⟨a, ha, hn⟩ := h
      exact absurd (by simpa using hn) (hf a ha)

theorem alphaChecks_pass (compareFields : StructField → StructField → Option String)
    (compositeType alphaType : StructType)
    (h : alphaChecks compareFields compositeType alphaType = none) :
    (compositeType.Fields.drop 2).length = alphaType.Fields.length
    ∧ ∀ c ∈ compositeType.Fields.drop 2,
        ∃ a, FieldByName alphaType c.Name = some a ∧ compareFields c a = none := by
  unfold alphaChecks at h
  split_ifs at h with hn
  rw [List.findSome?_eq_none_iff] at h
  constructor
  · unfold NumField at hn
    rw [List.length_drop]
    omega
  · intro c hc
    have hcheck := h c hc
    unfold alphaFieldCheck at hcheck
    cases hf : FieldByName alphaType c.Name with
    | none => simp [hf] at hcheck
    | some a =>
        simp only [hf] at hcheck
        exact ⟨a, rfl, hcheck⟩

/-- C14 as stated fails: the descriptor lists a field Header where the alpha
type has the field Name.  The count check passes, and the lookup of Header
succeeds through the field that the alpha type promotes from its embedded
server response, so the alpha checks pass; yet the alpha field Name has no
namesake in the composite type and the names do not correspond. -/
theorem promoted_field_passes_alpha_checks :
    sampleDriftedUrlMap.IsMainService = true
    ∧ ((reflectType serverResponseFields (genType sampleDriftedUrlMap)).Fields.map
        StructField.Name).Nodup
    ∧ alphaChecks sampleCompareFields
        (reflectType serverResponseFields (genType sampleDriftedUrlMap)) sampleAlphaUrlMap = none
    ∧ "Name" ∈ sampleAlphaUrlMap.Fields.map StructField.Name
    ∧ "Name" ∉ (reflectType serverResponseFields (genType sampleDriftedUrlMap)).Fields.map
        StructField.Name
    ∧ ¬ Corresponds sampleCompareFields
        (reflectType serverResponseFields (genType sampleDriftedUrlMap)) sampleAlphaUrlMap := by
  refine ⟨rfl, by decide, by decide, by decide, by decide, ?_⟩
  intro hc
  have hmem : "Name" ∈ ((reflectType serverResponseFields
      (genType sampleDriftedUrlMap)).Fields.drop 2).map StructField.Name :=
    hc.1.mem_iff.mpr (by decide)
  revert hmem
  decide

/-- C14 amended: for a main resource, when the emitted test passes its alpha
checks and every composite field from index 2 on has its namesake among the
own fields of the alpha type (so that no lookup is answered by a field promoted
from an embedded member), the members after Version and Scope correspond one
to one to the fields of the alpha type: their names are the names of the alpha
fields up to order, every such member has its namesake in the alpha type with
a matching type, and every alpha field has its namesake among them with a
matching type.  The member names of the composite type are distinct, as in
every Go struct. -/
theorem alpha_checks_give_correspondence (svc : ApiService)
    (promoted : String → Option StructField)
    (compareFields : StructField → StructField → Option String) (alphaType : StructType)
    (hmain : svc.IsMainService = true)
    (hnodup : ((reflectType promoted (genType svc)).Fields.map StructField.Name).Nodup)
    (hown : ∀ c ∈ (reflectType promoted (genType svc)).Fields.drop 2,
        c.Name ∈ alphaType.Fields.map StructField.Name)
    (h : alphaChecks compareFields (reflectType promoted (genType svc)) alphaType = none) :
    ((reflectType promoted (genType svc)).Fields.take 2).map StructField.Name
        = ["Version", "Scope"]
    ∧ Corresponds compareFields (reflectType promoted (genType svc)) alphaType := by
  obtain ⟨hlen, hlook⟩ := alphaChecks_pass compareFields _ alphaType h
  have hfound : ∀ c ∈ (reflectType promoted (genType svc)).Fields.drop 2,
      ∃ a ∈ alphaType.Fields, a.Name = c.Name ∧ compareFields c a = none := by
    intro c hc
    obtain ⟨a, ha, hname, hfa⟩ := FieldByName_own alphaType c.Name (hown c hc)
    obtain ⟨a2, hfa2, hcmp⟩ := hlook c hc
    rw [hfa] at hfa2
    cases hfa2
    exact ⟨a, ha, hname, hcmp⟩
  have hnd : (((reflectType promoted (genType svc)).Fields.drop 2).map
      StructField.Name).Nodup := by
    rw [List.map_drop]
    exact List.Nodup.sublist (List.drop_sublist 2 _) hnodup
  have hsub : ((reflectType promoted (genType svc)).Fields.drop 2).map StructField.Name
      ⊆ alphaType.Fields.map StructField.Name := by
    intro n hn
    rw [List.mem_map] at hn
    obtain ⟨c, hc, rfl⟩ := hn
    exact hown c hc
  have hperm : (((reflectType promoted (genType svc)).Fields.drop 2).map
      StructField.Name).Perm (alphaType.Fields.map StructField.Name) :=
    (List.Nodup.subperm hnd hsub).perm_of_length_le
      (by simp only [List.length_map]; exact le_of_eq hlen.symm)
  have hndA : (alphaType.Fields.map StructField.Name).Nodup := hperm.nodup_iff.mp hnd
  refine ⟨?_, hperm, hfound, ?_⟩
  · simp [reflectType, genType, bookkeepingMembers, hmain]
  · intro a ha
    have hmem : a.Name ∈ ((reflectType promoted (genType svc)).Fields.drop 2).map
        StructField.Name :=
      hperm.mem_iff.mpr (List.mem_map_of_mem _ ha)
    rw [List.mem_map] at hmem
    obtain ⟨c, hc, hname⟩ := hmem
    obtain ⟨a2, ha2, hname2, hcmp⟩ := hfound c hc
    have : a2 = a := List.inj_on_of_nodup_map hndA ha2 ha (hname2.trans hname)
    subst this
    exact ⟨c, hc, hname, hcmp⟩

theorem alpha_checks_give_correspondence_witness :
    sampleUrlMap.IsMainService = true
    ∧ alphaChecks sampleCompareFields (reflectType serverResponseFields (genType sampleUrlMap))
        sampleAlphaUrlMap = none
    ∧ Corresponds sampleCompareFields (reflectType serverResponseFields (genType sampleUrlMap))
        sampleAlphaUrlMap :=
  ⟨rfl, by decide,
   (alpha_checks_give_correspondence sampleUrlMap serverResponseFields sampleCompareFields
      sampleAlphaUrlMap rfl (by decide) (by decide) (by decide)).2⟩

/-! ## The conversion to a revision -/

theorem forceSendPatch_nil (obj lower : ServiceObj)
    (h1 : lower.CdnPolicy = none) (h2 : lower.Iap = none) (h3 : lower.LogConfig = none) :
    forceSendPatch obj lower = some lower := by
  unfold forceSendPatch patchCdnPolicy
  simp only [h1]
  unfold patchIap
  simp only [h2]
  unfold patchLogConfig
  simp only [h3]

/-- C15: for every descriptor and every entry of the revision table, ToVERSION
of the zero composite value returns no error and the zero value of the
revision type, provided the structural copy maps the zero value to the zero
value, so the emitted conversion test passes; for BackendService the
force-send patch leaves an object unchanged when its CdnPolicy, Iap and
LogConfig are all nil. -/
theorem zero_converts_to_zero (svc : ApiService) (version : String)
    (copy : ServiceObj → Except Err ServiceObj)
    (hcopy : copy ServiceObj.zero = .ok ServiceObj.zero) :
    ToVersion svc version copy ServiceObj.zero = Converted.ok ServiceObj.zero
    ∧ TestToVersion svc version copy = none
    ∧ (∀ obj lower : ServiceObj, lower.CdnPolicy = none → lower.Iap = none →
        lower.LogConfig = none → forceSendPatch obj lower = some lower) := by
  have h : ToVersion svc version copy ServiceObj.zero = Converted.ok ServiceObj.zero := by
    unfold ToVersion
    rw [hcopy]
    simp only
    split_ifs
    · rw [forceSendPatch_nil ServiceObj.zero ServiceObj.zero rfl rfl rfl]
    · rfl
  refine ⟨h, ?_, forceSendPatch_nil⟩
  unfold TestToVersion
  rw [h]
  simp

theorem zero_converts_to_zero_witness :
    sampleCopy ServiceObj.zero = .ok ServiceObj.zero
    ∧ ToVersion sampleBackendService "Alpha" sampleCopy ServiceObj.zero
        = Converted.ok ServiceObj.zero
    ∧ TestToVersion sampleBackendService "Alpha" sampleCopy = none :=
  ⟨rfl, (zero_converts_to_zero sampleBackendService "Alpha" sampleCopy rfl).1,
   (zero_converts_to_zero sampleBackendService "Alpha" sampleCopy rfl).2.1⟩

theorem forceSendPatch_ok (obj lower r : ServiceObj) (h : forceSendPatch obj lower = some r) :
    (∀ lc, r.LogConfig = some lc →
        lc.ForceSendFields = if lc.Enable then ["Enable", "SampleRate"] else ["Enable"])
    ∧ (∀ iap, r.Iap = some iap →
        iap.ForceSendFields = ["Enabled", "Oauth2ClientId", "Oauth2ClientSecret"])
    ∧ (∀ cdn, r.CdnPolicy = some cdn →
        ∃ own, obj.CdnPolicy = some own
          ∧ cdn.ForceSendFields = own.ForceSendFields
              ++ ["NegativeCaching", "RequestCoalescing", "SignedUrlCacheMaxAgeSec",
                  "ServeWhileStale"])
    ∧ (∀ cdn ckp, r.CdnPolicy = some cdn → cdn.CacheKeyPolicy = some ckp →
        ckp.ForceSendFields = ["IncludeHost", "IncludeProtocol", "IncludeQueryString",
          "QueryStringBlacklist", "QueryStringWhitelist"]) := by
  unfold forceSendPatch at h
  cases h1 : patchCdnPolicy obj lower with
  | none => simp [h1] at h
  | some l1 =>
      simp only [h1, Option.some.injEq] at h
      subst h
      have hcdn : (patchLogConfig (patchIap l1)).CdnPolicy = l1.CdnPolicy := by
        unfold patchLogConfig patchIap
        repeat' split
        all_goals rfl
      refine ⟨?_, ?_, ?_, ?_⟩
      · intro lc hlc
        unfold patchLogConfig at hlc
        split at hlc
        · next hn =>
            rw [hn] at hlc
            cases hlc
        · next lc0 _ =>
            split_ifs at hlc with he
            · simp only [Option.some.injEq] at hlc
              subst hlc
              simp [he]
            · simp only [Option.some.injEq] at hlc
              subst hlc
              simp [he]
      · intro iap hiap
        have hi : (patchLogConfig (patchIap l1)).Iap = (patchIap l1).Iap := by
          unfold patchLogConfig
          repeat' split
          all_goals rfl
        rw [hi] at hiap
        unfold patchIap at hiap
        split at hiap
        · next hn =>
            rw [hn] at hiap
            cases hiap
        · simp only [Option.some.injEq] at hiap
          subst hiap
          rfl
      · intro cdn hc
        rw [hcdn] at hc
        unfold patchCdnPolicy at h1
        split at h1
        · next hn =>
            simp only [Option.some.injEq] at h1
            subst h1
            rw [hn] at hc
            cases hc
        · split at h1
          · cases h1
          · next own hown =>
              simp only [Option.some.injEq] at h1
              subst h1
              simp only [Option.some.injEq] at hc
              subst hc
              exact ⟨own, hown, rfl⟩
      · intro cdn ckp hc hk
        rw [hcdn] at hc
        unfold patchCdnPolicy at h1
        split at h1
        · next hn =>
            simp only [Option.some.injEq] at h1
            subst h1
            rw [hn] at hc
            cases hc
        · split at h1
          · cases h1
          · simp only [Option.some.injEq] at h1
            subst h1
            simp only [Option.some.injEq] at hc
            subst hc
            simp only at hk
            split at hk
            · cases hk
            · simp only [Option.some.injEq] at hk
              subst hk
              rfl

/-- C16: the force-send patch belongs to the descriptor named BackendService
only and does not depend on the revision.  After a successful ToVERSION of
BackendService a LogConfig that is not nil has ForceSendFields [Enable] when
Enable is false and [Enable, SampleRate] when it is true; an Iap that is not
nil has [Enabled, Oauth2ClientId, Oauth2ClientSecret]; a CdnPolicy that is not
nil has the ForceSendFields of the CdnPolicy of the composite object followed
by [NegativeCaching, RequestCoalescing, SignedUrlCacheMaxAgeSec,
ServeWhileStale]; and its CacheKeyPolicy, when not nil, has [IncludeHost,
IncludeProtocol, IncludeQueryString, QueryStringBlacklist,
QueryStringWhitelist].  For any other descriptor the copied object is returned
as it is. -/
theorem force_send_patch_guarantees (svc : ApiService) (version : String)
    (copy : ServiceObj → Except Err ServiceObj) (obj : ServiceObj) :
    (svc.Name = "BackendService" → ∀ r, ToVersion svc version copy obj = Converted.ok r →
        (∀ lc, r.LogConfig = some lc →
            lc.ForceSendFields = if lc.Enable then ["Enable", "SampleRate"] else ["Enable"])
        ∧ (∀ iap, r.Iap = some iap →
            iap.ForceSendFields = ["Enabled", "Oauth2ClientId", "Oauth2ClientSecret"])
        ∧ (∀ cdn, r.CdnPolicy = some cdn →
            ∃ own, obj.CdnPolicy = some own
              ∧ cdn.ForceSendFields = own.ForceSendFields
                  ++ ["NegativeCaching", "RequestCoalescing", "SignedUrlCacheMaxAgeSec",
                      "ServeWhileStale"])
        ∧ (∀ cdn ckp, r.CdnPolicy = some cdn → cdn.CacheKeyPolicy = some ckp →
            ckp.ForceSendFields = ["IncludeHost", "IncludeProtocol", "IncludeQueryString",
              "QueryStringBlacklist", "QueryStringWhitelist"]))
    ∧ (svc.Name ≠ "BackendService" → ∀ lower, copy obj = .ok lower →
        ToVersion svc version copy obj = Converted.ok lower)
    ∧ (∀ (version2 : String) (r : ServiceObj), ToVersion svc version copy obj = Converted.ok r →
        ToVersion svc version2 copy obj = Converted.ok r) := by
  refine ⟨?_, ?_, ?_⟩
  · intro hname r hr
    unfold ToVersion at hr
    cases hc : copy obj with
    | error e => simp [hc] at hr
    | ok lower =>
        simp only [hc, hname, if_true] at hr
        cases hp : forceSendPatch obj lower with
        | none => simp [hp] at hr
        | some patched =>
            simp only [hp, Converted.ok.injEq] at hr
            subst hr
            exact forceSendPatch_ok obj lower patched hp
  · intro hname lower hc
    unfold ToVersion
    rw [hc]
    simp [hname]
  · intro version2 r hr
    unfold ToVersion at hr ⊢
    cases hc : copy obj with
    | error e => simp [hc] at hr
    | ok lower =>
        simp only [hc] at hr ⊢
        exact hr

theorem force_send_patch_guarantees_witness :
    sampleBackendService.Name = "BackendService"
    ∧ ToVersion sampleBackendService "Beta" sampleCopy sampleServiceObj
        = Converted.ok
            { CdnPolicy := some
                { CacheKeyPolicy := some { ForceSendFields := ["IncludeHost", "IncludeProtocol",
                    "IncludeQueryString", "QueryStringBlacklist", "QueryStringWhitelist"] },
                  ForceSendFields := ["CacheMode", "NegativeCaching", "RequestCoalescing",
                    "SignedUrlCacheMaxAgeSec", "ServeWhileStale"] },
              Iap := some { ForceSendFields := ["Enabled", "Oauth2ClientId",
                "Oauth2ClientSecret"] },
              LogConfig := some { Enable := true, ForceSendFields := ["Enable", "SampleRate"] } }
    ∧ (({ Enable := true, ForceSendFields := ["Enable", "SampleRate"] } :
          BackendServiceLogConfig).ForceSendFields
        = if ({ Enable := true, ForceSendFields := ["Enable", "SampleRate"] } :
            BackendServiceLogConfig).Enable then ["Enable", "SampleRate"] else ["Enable"])
    ∧ ToVersion sampleNeg "Beta" sampleCopy sampleServiceObj = Converted.ok sampleServiceObj :=
  ⟨rfl, rfl,
   ((force_send_patch_guarantees sampleBackendService "Beta" sampleCopy sampleServiceObj).1 rfl
      _ rfl).1 _ rfl,
   (force_send_patch_guarantees sampleNeg "Beta" sampleCopy sampleServiceObj).2.1 (by decide)
      sampleServiceObj rfl⟩

/-! ## Independence of the catalog order -/

theorem invoke_zonal_vars (tv tv2 : TemplateVars) (svc : ApiService) (w : World)
    (inv : Invocation) (h1 : tv.onlyZonalKeySupported = true)
    (h2 : tv2.onlyZonalKeySupported = true) :
    invoke tv svc w inv = invoke tv2 svc w inv := by
  have hk : ∀ key, crudKeyCheck tv svc key = crudKeyCheck tv2 svc key := by
    intro key; simp [crudKeyCheck, h1, h2]
  have hcreate : ∀ c key x, createCall tv svc c key x = createCall tv2 svc c key x := by
    intro c key x; simp [createCall, h1, h2]
  have hupdate : ∀ c key x, updateCall tv svc c key x = updateCall tv2 svc c key x := by
    intro c key x; simp [updateCall, h1, h2]
  have hdelete : ∀ c key, deleteCall tv svc c key = deleteCall tv2 svc c key := by
    intro c key; simp [deleteCall, h1, h2]
  have hget : ∀ c key, getCall tv svc c key = getCall tv2 svc c key := by
    intro c key; simp [getCall, h1, h2]
  have hlist : ∀ c key, listCall tv svc c key = listCall tv2 svc c key := by
    intro c key; simp [listCall, h1, h2]
  have hstamp : ∀ key x, getStamp tv svc key x = getStamp tv2 svc key x := by
    intro key x; simp [getStamp, h1, h2]
  cases inv with
  | Create key obj => simp only [invoke, Create, hk, hcreate]
  | Update key obj => simp only [invoke, Update, hk, hupdate]
  | Delete key version => simp only [invoke, Delete, hk, hdelete]
  | Get key version => simp only [invoke, Get, getSwitch, hk, hget, hstamp]
  | List key version => simp only [invoke, ListProvider, listSwitch, hk, hlist]
  | Attach key version req => rfl
  | Detach key version req => rfl
  | ListMembers key version req => rfl
  | AggregateList version => rfl

theorem renderVars_nonzonal (before before2 : List ApiService) (svc : ApiService)
    (h : svc.IsDefaultZonalService = false) :
    renderVars before svc = renderVars before2 svc := by
  unfold renderVars assignVars
  simp [h]

/-- The blocks of a descriptor without the snapshot of the template variables:
kind and emitted name. -/
theorem emitFor_blocks (tv tv2 : TemplateVars) (svc : ApiService)
    (versions : List (String × String)) :
    (emitFor tv svc versions).map (fun f => (f.kind, f.name, f.svc))
      = (emitFor tv2 svc versions).map (fun f => (f.kind, f.name, f.svc)) := by
  unfold emitFor emitOps emitConversions
  split_ifs <;> simp [emitOp] <;> rfl

/-- C17: what genFuncs renders for a descriptor depends on the descriptor and
the revision table only.  Whatever descriptors precede it in the catalog, the
same blocks with the same names are rendered for it, and every emitted
operation behaves the same on every transport and every argument: all three
template variables are assigned anew for a descriptor that is not zonal-only,
and for a zonal-only descriptor the fillers that keep their previous values
are not referenced.  The blocks of a descriptor sit in the output of genFuncs
between those of the descriptors before it and those of the descriptors after
it. -/
theorem emitted_code_independent_of_order (before before2 : List ApiService)
    (svc : ApiService) (versions : List (String × String)) :
    (emitFor (renderVars before svc) svc versions).map (fun f => (f.kind, f.name, f.svc))
        = (emitFor (renderVars before2 svc) svc versions).map
            (fun f => (f.kind, f.name, f.svc))
    ∧ (∀ (w : World) (inv : Invocation),
        invoke (renderVars before svc) svc w inv = invoke (renderVars before2 svc) svc w inv)
    ∧ (svc.IsDefaultZonalService = false → renderVars before svc = renderVars before2 svc)
    ∧ (∀ after : List ApiService,
        genFuncs (before ++ svc :: after) versions
          = genFuncs before versions ++ emitFor (renderVars before svc) svc versions
              ++ genFuncsFrom versions (renderVars before svc) after) := by
  refine ⟨emitFor_blocks _ _ svc versions, ?_, renderVars_nonzonal before before2 svc,
    genFuncs_split versions before svc⟩
  intro w inv
  cases hz : svc.IsDefaultZonalService
  · rw [renderVars_nonzonal before before2 svc hz]
  · exact invoke_zonal_vars _ _ svc w inv
      ((renderVars_onlyZonal before svc).trans hz) ((renderVars_onlyZonal before2 svc).trans hz)

theorem emitted_code_independent_of_order_witness :
    renderVars [sampleForwardingRule] sampleNeg ≠ renderVars [sampleBackendService] sampleNeg
    ∧ (∀ (w : World) (inv : Invocation),
        invoke (renderVars [sampleForwardingRule] sampleNeg) sampleNeg w inv
          = invoke (renderVars [sampleBackendService] sampleNeg) sampleNeg w inv)
    ∧ renderVars [sampleNeg] sampleForwardingRule = renderVars [] sampleForwardingRule :=
  ⟨by decide,
   (emitted_code_independent_of_order [sampleForwardingRule] [sampleBackendService] sampleNeg
      sampleVersions).2.1,
   (emitted_code_independent_of_order [sampleNeg] [] sampleForwardingRule sampleVersions).2.2.1
      rfl⟩

/-! ## The Region member in Create and Update -/

theorem calls_Observe (pre : List Event) (c : Call) (e : Option Err) (hp : calls pre = []) :
    calls (Observe pre c e).trace = [c] := by
  unfold Observe
  exact calls_append_call pre c e hp

theorem createCall_request (before : List ApiService) (svc : ApiService) (client : Client)
    (key : Key) (y : GceObj) (hz : svc.IsDefaultZonalService = false) :
    (createCall (renderVars before svc) svc client key y).method = "Insert"
    ∧ (key.Typ = KeyType.Regional →
        (createCall (renderVars before svc) svc client key y).request
          = some { y with Region := key.Region })
    ∧ (key.Typ ≠ KeyType.Regional →
        (createCall (renderVars before svc) svc client key y).request = some y) := by
  unfold createCall
  rw [renderVars_onlyZonal, hz]
  cases hT : key.Typ <;> simp

theorem updateCall_method (tv : TemplateVars) (svc : ApiService) (client : Client)
    (key : Key) (y : GceObj) : (updateCall tv svc client key y).method = "Update" := by
  unfold updateCall
  split_ifs
  · rfl
  · split <;> rfl

/-- C18: for a resource that is not zonal-only, Create hands the insert call
the converted object with its Region member overwritten by key.Region when
the key is Regional, and the converted object as it is for every other key
type, whatever the revision; Update hands the update call the converted
object as it is, for every key type and revision. -/
theorem create_overwrites_region (before : List ApiService) (svc : ApiService) (w : World)
    (key : Key) (obj : Composite) (y : GceObj)
    (hy : toRevision w (clientFor obj.Version) obj = .ok y) :
    (svc.IsDefaultZonalService = false → key.Typ = KeyType.Regional →
        ∃ c, calls (Create (renderVars before svc) svc w key obj).trace = [c]
          ∧ c.method = "Insert" ∧ c.client = clientFor obj.Version
          ∧ c.request = some { y with Region := key.Region })
    ∧ (svc.IsDefaultZonalService = false → key.Typ ≠ KeyType.Regional →
        ∃ c, calls (Create (renderVars before svc) svc w key obj).trace = [c]
          ∧ c.method = "Insert" ∧ c.client = clientFor obj.Version
          ∧ c.request = some y)
    ∧ (∀ c ∈ calls (Update (renderVars before svc) svc w key obj).trace,
        c.method = "Update" ∧ c.client = clientFor obj.Version ∧ c.request = some y)
    ∧ (crudKeyCheck (renderVars before svc) svc key = none →
        ∃ c, calls (Update (renderVars before svc) svc w key obj).trace = [c]) := by
  have hknz : svc.IsDefaultZonalService = false →
      crudKeyCheck (renderVars before svc) svc key = none := by
    intro hz
    rw [crudKeyCheck_renderVars, hz]
    rfl
  refine ⟨?_, ?_, ?_, ?_⟩
  · intro hz ht
    obtain ⟨hm, hr, _⟩ := createCall_request before svc (clientFor obj.Version) key y hz
    refine ⟨createCall (renderVars before svc) svc (clientFor obj.Version) key y, ?_, hm,
      (createCall_props before svc (clientFor obj.Version) key y).1, hr ht⟩
    rw [Create_called _ _ _ _ _ y (hknz hz) hy]
    exact calls_Observe _ _ _ rfl
  · intro hz ht
    obtain ⟨hm, _, hr⟩ := createCall_request before svc (clientFor obj.Version) key y hz
    refine ⟨createCall (renderVars before svc) svc (clientFor obj.Version) key y, ?_, hm,
      (createCall_props before svc (clientFor obj.Version) key y).1, hr ht⟩
    rw [Create_called _ _ _ _ _ y (hknz hz) hy]
    exact calls_Observe _ _ _ rfl
  · intro c hc
    cases hk : crudKeyCheck (renderVars before svc) svc key with
    | some e =>
        unfold Update at hc
        rw [hk] at hc
        simp [calls] at hc
    | none =>
        rw [Update_called _ _ _ _ _ y hk hy,
          calls_Observe [Event.convert (clientFor obj.Version)] _ _ rfl,
          List.mem_singleton] at hc
        subst hc
        obtain ⟨p1, _, _, p4⟩ := updateCall_props before svc (clientFor obj.Version) key y
        exact ⟨updateCall_method _ _ _ _ _, p1, p4⟩
  · intro hk
    refine ⟨updateCall (renderVars before svc) svc (clientFor obj.Version) key y, ?_⟩
    rw [Update_called _ _ _ _ _ y hk hy]
    exact calls_Observe _ _ _ rfl

theorem create_overwrites_region_witness :
    toRevision sampleWorld (clientFor sampleComposite.Version) sampleComposite
        = .ok { Name := "bs-1", Region := "", SelfLink := "" }
    ∧ sampleBackendService.IsDefaultZonalService = false
    ∧ regionalKey.Typ = KeyType.Regional
    ∧ (∃ c, calls (Create (renderVars [sampleNeg] sampleBackendService) sampleBackendService
          sampleWorld regionalKey sampleComposite).trace = [c]
        ∧ c.method = "Insert" ∧ c.client = clientFor sampleComposite.Version
        ∧ c.request = some { Name := "bs-1", Region := "us-central1", SelfLink := "" })
    ∧ (∃ c, calls (Update (renderVars [sampleNeg] sampleBackendService) sampleBackendService
          sampleWorld regionalKey sampleComposite).trace = [c]) :=
  ⟨rfl, rfl, rfl,
   (create_overwrites_region [sampleNeg] sampleBackendService sampleWorld regionalKey
      sampleComposite { Name := "bs-1", Region := "", SelfLink := "" } rfl).1 rfl rfl,
   (create_overwrites_region [sampleNeg] sampleBackendService sampleWorld regionalKey
      sampleComposite { Name := "bs-1", Region := "", SelfLink := "" } rfl).2.2.2 rfl⟩

end CompositeGen
